import Mathlib

/-!
# Verification of the Consolite compiler front end and code generator

Shallow embedding of the Consolite compiler (tokenizer, expression /
declaration / statement parsers, constant folding, the instruction writer
with its PUSH/POP peephole, and the register/stack allocator), together
with theorems settling the specification claims against it.

Machine integers (`uint16_t`) are modelled as `Nat` with explicit
reduction modulo 2^16 wherever the C++ arithmetic wraps.
-/

namespace Consolite

/-- 16-bit wrap-around, mirroring C++ `uint16_t` arithmetic. -/
def u16 (n : Nat) : Nat := n % 65536

/-! ## util.cpp : classifiers and diagnostics -/

/-- First character of a valid name: `[_a-zA-Z]`. -/
def isNameStart (c : Char) : Bool :=
  c == '_' || ('a' ≤ c && c ≤ 'z') || ('A' ≤ c && c ≤ 'Z')

/-- Subsequent characters of a valid name: `[_a-zA-Z0-9]`. -/
def isNameRest (c : Char) : Bool :=
  isNameStart c || ('0' ≤ c && c ≤ '9')

/-- Core of `isValidName` on a character list:
the regex `^[_a-zA-Z][_a-zA-Z0-9]*$`. -/
def isValidNameL : List Char → Bool
  | [] => false
  | c :: cs => isNameStart c && cs.all isNameRest

/-- `isValidName` from util.cpp. -/
def isValidName (s : String) : Bool := isValidNameL s.toList

/-- `isLabelDeclaration` from util.cpp: the regex
`^[_a-zA-Z][_a-zA-Z0-9]*:$`, i.e. a valid name followed by a colon,
all inside one atom. -/
def isLabelDeclaration (s : String) : Bool :=
  let l := s.toList
  (l.getLast? == some ':') && isValidNameL (l.dropLast)

/-- `isType` from util.cpp. -/
def isType (s : String) : Bool := s == "void" || s == "uint16"

/-- `isBuiltin` from util.cpp. -/
def isBuiltin (s : String) : Bool :=
  s == "COLOR" || s == "PIXEL" || s == "TIMERST" || s == "TIME" ||
  s == "INPUT" || s == "RND"

/-- `otherParen` from util.cpp. -/
def otherParen (paren : String) : String :=
  if paren == "(" then ")"
  else if paren == ")" then "("
  else if paren == "[" then "]"
  else if paren == "]" then "["
  else if paren == "\x7b" then "\x7d"
  else if paren == "\x7d" then "\x7b"
  else ""

/-- One hex digit character, as produced by `toHexStr`. -/
def hexDigitChar (n : Nat) : Char :=
  if n ≤ 9 then Char.ofNat ('0'.toNat + n) else Char.ofNat ('a'.toNat - 10 + n)

/-- The digit loop of `toHexStr`: prepend the low nibble each round. -/
def toHexStrGo : Nat → Nat → List Char → List Char
  | 0, _, acc => acc
  | d + 1, v, acc => toHexStrGo d (v / 16) (hexDigitChar (v % 16) :: acc)

/-- `toHexStr` from util.cpp: renders a value as `0x0000` with the given
number of digits (default 4). -/
def toHexStr (value : Nat) (digits : Nat := 4) : String :=
  "0x" ++ String.mk (toHexStrGo digits value [])

/-- Rendering of the `_error` / `_warn` diagnostics from util.cpp:
`<kind>:<line>: <msg>`, with the line omitted when not positive. -/
def renderDiag (kind : String) (msg : String) (lineNum : Int) : String :=
  kind ++ ":" ++ (if 0 < lineNum then toString lineNum ++ ":" else "") ++
    " " ++ msg

/-- `_error` rendering. -/
def errorDiag (msg : String) (lineNum : Int) : String :=
  renderDiag "Error" msg lineNum

/-- `_warn` rendering. -/
def warnDiag (msg : String) (lineNum : Int) : String :=
  renderDiag "Warning" msg lineNum

/-! ## tokenizer.cpp : the lexical tokenizer

Embeds `Tokenizer::getNext` (the version whose two-character operators
include `<<` and `>>`).  The C++ walks a byte buffer with an offset; we
walk the remaining character list, carrying the previously consumed
character (used only by the block-comment closing test, which looks back
one position and can therefore never consult a character from before the
current call: the block-comment state only arises after `/*` was seen in
the same call). -/

/-- A lexical atom: the `AtomToken` of the C++ (text plus line number). -/
structure Atom where
  str : String
  line : Nat
  deriving Repr, DecidableEq

/-- The two-character operator table of the tokenizer. -/
def twoCharOp (a b : Char) : Bool :=
  (a == '|' && b == '|') || (a == '&' && b == '&') || (a == '=' && b == '=') ||
  (a == '!' && b == '=') || (a == '<' && b == '=') || (a == '>' && b == '=') ||
  (a == '<' && b == '<') || (a == '>' && b == '>')

/-- The single-character operator/punctuator table of the tokenizer.
Note that `:` is deliberately absent, exactly as in the source. -/
def oneCharOp (c : Char) : Bool :=
  c == '+' || c == '-' || c == '*' || c == '/' || c == '%' || c == '&' ||
  c == '|' || c == '^' || c == '=' || c == '<' || c == '>' || c == '!' ||
  c == '~' || c == ',' || c == ';' || c == '[' || c == ']' || c == '(' ||
  c == ')' || c == '\x7b' || c == '\x7d'

/-- ASCII whitespace recognized by the tokenizer. -/
def isWs (c : Char) : Bool :=
  c == ' ' || c == '\t' || c == '\n' || c == '\r'

/-- The while-loop of `Tokenizer::getNext`.  Arguments: remaining input,
previously consumed character, current line, token accumulated so far,
single-line / multi-line comment states.  Returns the token, the
remaining input after the stopping position, and the updated line. -/
def getNextGo : List Char → Option Char → Nat → List Char → Bool → Bool →
    (List Char × List Char × Nat)
  | [], _, lineNum, token, _, _ => (token, [], lineNum)
  | c :: rest, prev, lineNum, token, single, multi =>
    -- the shared bottom of the loop body: count newlines, advance
    let bump := fun (tok : List Char) (s m : Bool) =>
      getNextGo rest (some c) (if c == '\n' then lineNum + 1 else lineNum)
        tok s m
    if single then
      -- in a `//` comment: consume until newline
      bump token (!(c == '\n')) multi
    else if multi then
      -- in a `/*` comment: consume until a `/` preceded by `*`
      bump token single (!(c == '/' && prev == some '*'))
    else if isWs c then
      if 0 < token.length then (token, c :: rest, lineNum)
      else bump token single multi
    else if c == '/' && (match rest with | r :: _ => r == '/' | [] => false) then
      if 0 < token.length then (token, c :: rest, lineNum)
      else bump token true multi
    else if c == '/' && (match rest with | r :: _ => r == '*' | [] => false) then
      if 0 < token.length then (token, c :: rest, lineNum)
      else bump token single true
    else
      match rest with
      | r :: rest' =>
        if twoCharOp c r then
          if token.length == 0 then ([c, r], rest', lineNum)
          else (token, c :: rest, lineNum)
        else if oneCharOp c then
          if token.length == 0 then ([c], rest, lineNum)
          else (token, c :: rest, lineNum)
        else bump (token ++ [c]) single multi
      | [] =>
        if oneCharOp c then
          if token.length == 0 then ([c], rest, lineNum)
          else (token, c :: rest, lineNum)
        else bump (token ++ [c]) single multi

/-- `Tokenizer::getNext`, starting a fresh token at the given stream
position.  Returns the atom together with the rest of the stream and the
updated line counter.  (The previously consumed character is passed as
`none`; it is consulted only inside a block comment, a state that cannot
hold when a call starts.) -/
def getNextTok (cs : List Char) (lineNum : Nat) : Atom × List Char × Nat :=
  let r := getNextGo cs none lineNum [] false false
  (⟨String.mk r.1, r.2.2⟩, r.2.1, r.2.2)

/-- Repeated `getNext` until the empty (end-of-input) atom, i.e. the atom
stream a parser pulling on the tokenizer observes.  The fuel is an upper
bound on the number of atoms; a nonempty atom always consumes input, so
`|input| + 1` suffices. -/
def tokenizeGo : Nat → List Char → Nat → List Atom × Nat
  | 0, _, lineNum => ([], lineNum)
  | fuel + 1, cs, lineNum =>
    let (tok, rest, lineNum') := getNextGo cs none lineNum [] false false
    if tok.isEmpty then ([], lineNum')
    else
      let (atoms, lineEnd) := tokenizeGo fuel rest lineNum'
      (⟨String.mk tok, lineNum'⟩ :: atoms, lineEnd)

/-- The full atom stream of a source text, starting on line 1, together
with the final line counter (the line number carried by the
end-of-input atoms). -/
def tokenizeFull (src : String) : List Atom × Nat :=
  tokenizeGo (src.toList.length + 1) src.toList 1

/-- The full atom stream of a source text. -/
def tokenize (src : String) : List Atom := (tokenizeFull src).1

/-! ## syntax.cpp : literals and operators -/

def isDigitC (c : Char) : Bool := '0' ≤ c && c ≤ '9'

def isHexDigitC (c : Char) : Bool :=
  isDigitC c || ('a' ≤ c && c ≤ 'f') || ('A' ≤ c && c ≤ 'F')

def isBinDigitC (c : Char) : Bool := c == '0' || c == '1'

def hexVal (c : Char) : Nat :=
  if isDigitC c then c.toNat - '0'.toNat
  else if 'a' ≤ c && c ≤ 'f' then c.toNat - 'a'.toNat + 10
  else c.toNat - 'A'.toNat + 10

/-- Does the text match `^0[xX][0-9a-fA-F]+$`? -/
def matchesHex : List Char → Bool
  | '0' :: x :: d :: ds => (x == 'x' || x == 'X') && (d :: ds).all isHexDigitC
  | _ => false

/-- Does the text match `^0[bB][01]+$`? -/
def matchesBin : List Char → Bool
  | '0' :: b :: d :: ds => (b == 'b' || b == 'B') && (d :: ds).all isBinDigitC
  | _ => false

/-- Does the text match `^[0-9]+$`? -/
def matchesDec (l : List Char) : Bool :=
  !l.isEmpty && l.all isDigitC

/-- `LiteralToken::parse`: recognizes hex, binary and decimal literals in
that order, accumulating into a `uint16_t` (wrap-around at every step).
Returns `none` when the text is not a literal. -/
def litParse (s : String) : Option Nat :=
  let l := s.toList
  if matchesHex l then
    some (l.drop 2 |>.foldl (fun v c => u16 (v * 16 + hexVal c)) 0)
  else if matchesBin l then
    some (l.drop 2 |>.foldl (fun v c => u16 (v * 2 + (c.toNat - '0'.toNat))) 0)
  else if matchesDec l then
    some (l.foldl (fun v c => u16 (v * 10 + (c.toNat - '0'.toNat))) 0)
  else none

/-- The operator table of `OperatorToken::parse`. -/
def validOps : List String :=
  ["+", "-", "*", "/", "%", "=", "&", "|", "^", "~", "!", "||",
   "&&", "<", "<=", ">", ">=", "==", "!=", "[", "<<", ">>"]

/-- `OperatorToken::maybeBinary`. -/
def maybeBinary (op : String) : Bool :=
  ["+", "-", "*", "/", "%", "=", "&", "|", "^", "||", "&&", "<",
   "<=", ">", ">=", "==", "!=", "[", "<<", ">>"].contains op

/-- `OperatorToken::maybeUnary`. -/
def maybeUnary (op : String) : Bool :=
  ["-", "*", "&", "~", "!", "+"].contains op

/-- An operator node: its text, its (unary/binary) disambiguation, and
the line it was read on (`OperatorToken`). -/
structure OpTok where
  op : String
  binary : Bool
  line : Int
  deriving Repr, DecidableEq

/-- `OperatorToken::precedence`.  Note the source tests `"["` first and
unary-ness second, in this order. -/
def precedence (o : OpTok) : Int :=
  if o.op == "[" then 1
  else if !o.binary then 2
  else if o.op == "*" || o.op == "/" || o.op == "%" then 3
  else if o.op == "+" || o.op == "-" then 4
  else if o.op == "<<" || o.op == ">>" then 5
  else if o.op == "<" || o.op == "<=" || o.op == ">" || o.op == ">=" then 6
  else if o.op == "==" || o.op == "!=" then 7
  else if o.op == "&" then 8
  else if o.op == "^" then 9
  else if o.op == "|" then 10
  else if o.op == "&&" then 11
  else if o.op == "||" then 12
  else if o.op == "=" then 13
  else -1

/-- `OperatorToken::leftToRight`: the source returns `isBinary()`, so
every binary operator (including `=`) is treated as left-to-right
associative, and every unary operator as right-to-left. -/
def leftToRight (o : OpTok) : Bool := o.binary

/-- `OperatorToken::operate`: constant folding of a single operator in
`uint16_t` arithmetic.  Returns the value together with any warnings
emitted, or `none` where the C++ would `throw` (assignment,
dereference, address-of and array indexing are not evaluated here). -/
def operate (o : OpTok) (lhs rhs : Nat) : Option (Nat × List String) :=
  if !o.binary then
    if o.op == "-" then some (u16 (65536 - u16 rhs), [])
    else if o.op == "*" then none
    else if o.op == "&" then none
    else if o.op == "~" then some (u16 rhs ^^^ 65535, [])
    else if o.op == "!" then some (if rhs == 0 then 1 else 0, [])
    else if o.op == "+" then some (u16 rhs, [])
    else none
  else
    if o.op == "+" then some (u16 (lhs + rhs), [])
    else if o.op == "-" then some (u16 (lhs + (65536 - u16 rhs)), [])
    else if o.op == "*" then some (u16 (lhs * rhs), [])
    else if o.op == "/" then
      if rhs == 0 then
        some (0xffff, [warnDiag "Division by zero in expression." o.line])
      else some (u16 (u16 lhs / u16 rhs), [])
    else if o.op == "%" then
      if rhs == 0 then
        some (0xffff, [warnDiag "Division by zero in expression." o.line])
      else some (u16 (u16 lhs % u16 rhs), [])
    else if o.op == "=" then none
    else if o.op == "&" then some (u16 lhs &&& u16 rhs, [])
    else if o.op == "|" then some (u16 lhs ||| u16 rhs, [])
    else if o.op == "^" then some (u16 lhs ^^^ u16 rhs, [])
    else if o.op == "||" then
      some (if u16 lhs ≠ 0 || u16 rhs ≠ 0 then 1 else 0, [])
    else if o.op == "&&" then
      some (if u16 lhs ≠ 0 && u16 rhs ≠ 0 then 1 else 0, [])
    else if o.op == "<" then some (if u16 lhs < u16 rhs then 1 else 0, [])
    else if o.op == "<=" then some (if u16 lhs ≤ u16 rhs then 1 else 0, [])
    else if o.op == ">" then some (if u16 rhs < u16 lhs then 1 else 0, [])
    else if o.op == ">=" then some (if u16 rhs ≤ u16 lhs then 1 else 0, [])
    else if o.op == "==" then some (if u16 lhs == u16 rhs then 1 else 0, [])
    else if o.op == "!=" then some (if u16 lhs != u16 rhs then 1 else 0, [])
    else if o.op == "[" then none
    else if o.op == "<<" then some (u16 (u16 lhs <<< u16 rhs), [])
    else if o.op == ">>" then some (u16 lhs >>> u16 rhs, [])
    else none

/-! ## Symbol records (the `Variable` / token hierarchy of syntax.h) -/

/-- `TypeToken`: a base type name with an optional array size. -/
structure TypeT where
  name : String
  isArray : Bool := false
  arraySize : Nat := 0
  line : Int := -1
  deriving Repr, DecidableEq

/-- `GlobalVarToken`: a global variable with its folded initial
value(s).  `value` is `val()`; `arrayValues` is the folded initializer
list (`arraySize()` in the source is `arrayValues.length`). -/
structure GlobalV where
  name : String
  type : TypeT
  value : Nat := 0
  arrayValues : List Nat := []
  line : Int := -1
  deriving Repr, DecidableEq

/-- `ParamToken`: a function parameter. -/
structure ParamV where
  name : String
  type : TypeT
  line : Int := -1
  deriving Repr, DecidableEq

/-- `LocalVarToken` as a symbol: a local variable. -/
structure LocalV where
  name : String
  type : TypeT
  line : Int := -1
  deriving Repr, DecidableEq

/-- The signature part of `FunctionToken` (what name resolution and call
validation consult). -/
structure FuncSig where
  typeName : String
  name : String
  params : List ParamV
  deriving Repr, DecidableEq

/-- `getGlobal`: linear search by name. -/
def getGlobal (name : String) (globals : List GlobalV) : Option GlobalV :=
  globals.find? (fun g => g.name == name)

/-- `getParameter`: linear search by name. -/
def getParameter (name : String) (params : List ParamV) : Option ParamV :=
  params.find? (fun p => p.name == name)

/-- `getLocal`: linear search by name. -/
def getLocal (name : String) (locals : List LocalV) : Option LocalV :=
  locals.find? (fun l => l.name == name)

/-- `getFunction`: linear search by name. -/
def getFunction (name : String) (funcs : List FuncSig) : Option FuncSig :=
  funcs.find? (fun f => f.name == name)

/-! ## Expression IR: the postfix node sequence of `ExprToken` -/

/-- One node of the postfix sequence `_postfix`.  `paren` mirrors the
`AtomToken "("` markers the source pushes on the operator stack (they
never survive into a successfully parsed expression, but the final
drain would copy them verbatim, so the embedding keeps the case). -/
inductive Node where
  | lit (value : Nat) (line : Int)
  | globalRef (g : GlobalV)
  | paramRef (p : ParamV)
  | localRef (l : LocalV)
  | call (funcName : String) (numArgs : Nat) (line : Int)
  | op (o : OpTok)
  | paren (line : Int)
  deriving Repr, DecidableEq

/-- Result of the `_validate` lvalue walk. -/
inductive ValidateRes where
  | ok
  | failed (diag : String)
  | underflow
  deriving Repr, DecidableEq

/-- `ExprToken::_validate`: simulate the postfix on a stack of
`"lvalue"` / `"rvalue"` tags.  `underflow` marks the states where the
C++ would pop an empty `std::stack` (undefined behavior; unreachable
for parser-produced sequences). -/
def validateGo : List Node → List String → ValidateRes
  | [], _ => .ok
  | n :: rest, operands =>
    match n with
    | .lit _ _ | .call _ _ _ => validateGo rest ("rvalue" :: operands)
    | .globalRef _ | .paramRef _ | .localRef _ =>
      validateGo rest ("lvalue" :: operands)
    | .op o =>
      match operands with
      | [] => .underflow
      | rhs :: operands' =>
        let popLhs : Option (String × List String) :=
          if o.binary then
            match operands' with
            | [] => none
            | lhs :: rest' => some (lhs, rest')
          else some ("", operands')
        match popLhs with
        | none => .underflow
        | some (lhs, operands'') =>
          if o.op == "=" then
            if lhs == "rvalue" then
              .failed (errorDiag "Can\x27t assign to an rvalue in expression."
                o.line)
            else validateGo rest ("rvalue" :: operands'')
          else if o.op == "*" && !o.binary then
            validateGo rest ("lvalue" :: operands'')
          else if o.op == "&" && !o.binary then
            if rhs != "lvalue" then
              .failed (errorDiag
                "Can\x27t get address of an rvalue in expression." o.line)
            else validateGo rest ("rvalue" :: operands'')
          else if o.op == "[" then
            validateGo rest ("lvalue" :: operands'')
          else validateGo rest ("rvalue" :: operands'')
    | .paren _ => validateGo rest operands

/-- An operand of the `_evaluate` stack: the `Token` pointers the source
pushes are either literal tokens (original or folded results) or global
variable tokens; everything else ends evaluation early. -/
inductive EvOperand where
  | lit (v : Nat)
  | glob (g : GlobalV)
  deriving Repr, DecidableEq

/-- `val()` of an `_evaluate` stack operand. -/
def EvOperand.val : EvOperand → Nat
  | .lit v => v
  | .glob g => g.value

/-- Result of the `_evaluate` walk. -/
inductive EvalRes where
  | ok (stack : List EvOperand) (warns : List String)
  | nonconst (warns : List String)
  | underflow
  | threw
  deriving Repr, DecidableEq

/-- `ExprToken::_evaluate`: fold the postfix sequence as far as compile
time allows.  `nonconst` corresponds to the early `_const = false`
returns; `underflow` to popping an empty stack (UB, unreachable from the
parser); `threw` to `operate` throwing (likewise unreachable).
`exprLine` is the expression's own `_lineNum`, used by the
out-of-bounds warning. -/
def evaluateGo (exprLine : Int) :
    List Node → List EvOperand → List String → EvalRes
  | [], stack, warns => .ok stack warns
  | n :: rest, operands, warns =>
    match n with
    | .lit v _ => evaluateGo exprLine rest (.lit v :: operands) warns
    | .globalRef g => evaluateGo exprLine rest (.glob g :: operands) warns
    | .paramRef _ | .localRef _ | .call _ _ _ => .nonconst warns
    | .op o =>
      match operands with
      | [] => .underflow
      | rhs :: operands' =>
        let popLhs : Option (Option EvOperand × List EvOperand) :=
          if o.binary then
            match operands' with
            | [] => none
            | lhs :: rest' => some (some lhs, rest')
          else some (none, operands')
        match popLhs with
        | none => .underflow
        | some (lhs, operands'') =>
          if (o.op == "=" && o.binary) ||
             ((o.op == "&" || o.op == "*") && !o.binary) then
            .nonconst warns
          else if o.op == "[" && o.binary then
            match lhs with
            | some (.glob g) =>
              if !g.type.isArray then .nonconst warns
              else if g.arrayValues.length ≤ rhs.val then
                .nonconst (warns ++
                  [warnDiag "Array index out of bounds in expression."
                    exprLine])
              else
                evaluateGo exprLine rest
                  (.lit (g.arrayValues.getD rhs.val 0) :: operands'') warns
            | _ => .nonconst warns
          else
            match operate o (match lhs with
                             | some l => l.val
                             | none => 0) rhs.val with
            | none => .threw
            | some (result, ws) =>
              evaluateGo exprLine rest (.lit result :: operands'')
                (warns ++ ws)
    | .paren _ => .nonconst warns

/-! ## The parser state

The C++ parser pulls atoms lazily from the tokenizer with one-atom
lookahead (`peekNext` / `getNext`).  Pre-tokenizing yields the same atom
sequence, so the embedding threads a list of atoms (plus the final line
number, used by the end-of-input atom) and the diagnostics emitted so
far through every parsing function. -/

structure PState where
  toks : List Atom
  eofLine : Nat
  diags : List String
  deriving Repr, DecidableEq

/-- `Tokenizer::peekNext` as seen through the pre-tokenized stream. -/
def PState.peek (s : PState) : Atom :=
  match s.toks with
  | a :: _ => a
  | [] => ⟨"", s.eofLine⟩

/-- `Tokenizer::getNext` as seen through the pre-tokenized stream. -/
def PState.next (s : PState) : Atom × PState :=
  match s.toks with
  | a :: rest => (a, { s with toks := rest })
  | [] => (⟨"", s.eofLine⟩, s)

/-- Consume one atom (a `getNext` whose result is discarded). -/
def PState.skip (s : PState) : PState := (s.next).2

/-- Append an `_error` diagnostic. -/
def PState.err (s : PState) (msg : String) (lineNum : Int) : PState :=
  { s with diags := s.diags ++ [errorDiag msg lineNum] }

/-- Append already-rendered diagnostics (e.g. warnings from folding). -/
def PState.addDiags (s : PState) (ds : List String) : PState :=
  { s with diags := s.diags ++ ds }

/-- `_expect` from util.cpp: consume the next atom and demand that it
equals `str`. -/
def expectTok (s : PState) (str : String) : Bool × PState :=
  let (t, s) := s.next
  if t.str.isEmpty then
    (false, s.err ("Unexpected EOF, expected \x27" ++ str ++ "\x27.") t.line)
  else if str != t.str then
    (false, s.err ("Unexpected token \x27" ++ t.str ++ "\x27, expected \x27" ++
      str ++ "\x27.") t.line)
  else (true, s)

/-- The result of `ExprToken::parse`: the postfix sequence together with
the `_const` / `_value` / `_lineNum` fields. -/
structure ExprInfo where
  pfix : List Node
  isConst : Bool
  value : Nat
  line : Int
  deriving Repr, DecidableEq

/-- Statement IR, tagged exactly as finely as the parsing logic needs
(the declaration-position check inspects the `localDecl` tag). -/
inductive Stmt where
  | nullS
  | compound
  | localDecl (v : LocalV)
  | exprS
  | voidCall (funcName : String)
  | ifS
  | forS
  | whileS
  | doWhileS
  | breakS
  | continueS
  | returnS (hasExpr : Bool)
  | labelS (name : String)
  | gotoS (label : String)
  deriving Repr, DecidableEq

/-- `BreakStatement::parse`. -/
def breakParse (s : PState) (inLoop : Bool) : Option Stmt × PState :=
  let lineNum : Int := s.peek.line
  match expectTok s "break" with
  | (false, s) => (none, s)
  | (true, s) =>
    match expectTok s ";" with
    | (false, s) => (none, s)
    | (true, s) =>
      if !inLoop then
        (none, s.err "Must be within a loop statement to use \x27break;\x27."
          lineNum)
      else (some .breakS, s)

/-- `ContinueStatement::parse`. -/
def continueParse (s : PState) (inLoop : Bool) : Option Stmt × PState :=
  let lineNum : Int := s.peek.line
  match expectTok s "continue" with
  | (false, s) => (none, s)
  | (true, s) =>
    match expectTok s ";" with
    | (false, s) => (none, s)
    | (true, s) =>
      if !inLoop then
        (none,
         s.err "Must be within a loop statement to use \x27continue;\x27."
          lineNum)
      else (some .continueS, s)

/-- `GotoStatement::parse`.  Returns the statement and the goto's line
(recorded for the post-body label check). -/
def gotoParse (s : PState) : Option (Stmt × Int) × PState :=
  let lineNum : Int := s.peek.line
  match expectTok s "goto" with
  | (false, s) => (none, s)
  | (true, s) =>
    let (labelTok, s) := s.next
    if labelTok.str.isEmpty then
      (none, s.err "Unexpected EOF." labelTok.line)
    else if !isValidName labelTok.str then
      (none, s.err "Invalid label name in goto statement." labelTok.line)
    else
      match expectTok s ";" with
      | (false, s) => (none, s)
      | (true, s) => (some (.gotoS labelTok.str, lineNum), s)

/-- `LabelStatement::parse`: one atom that must satisfy
`isLabelDeclaration`; the label name is the atom minus its trailing
colon. -/
def labelParse (s : PState) : Option Stmt × PState :=
  let (t, s) := s.next
  if t.str.isEmpty then (none, s.err "Unexpected EOF." t.line)
  else if !isLabelDeclaration t.str then
    (none, s.err "Invalid label declaration." t.line)
  else (some (.labelS (String.mk t.str.toList.dropLast)), s)

/-- The six builtin functions pre-registered by the `Parser`
constructor. -/
def builtinFuncs : List FuncSig :=
  [⟨"void", "COLOR", [⟨"color", ⟨"uint16", false, 0, -1⟩, -1⟩]⟩,
   ⟨"void", "PIXEL", [⟨"x", ⟨"uint16", false, 0, -1⟩, -1⟩,
                      ⟨"y", ⟨"uint16", false, 0, -1⟩, -1⟩]⟩,
   ⟨"void", "TIMERST", []⟩,
   ⟨"uint16", "TIME", []⟩,
   ⟨"uint16", "INPUT", [⟨"input_id", ⟨"uint16", false, 0, -1⟩, -1⟩]⟩,
   ⟨"uint16", "RND", []⟩]

/-- Is a node an `OperatorToken`?  (The shunting-yard pops operators
until this fails, i.e. until it meets a `(` marker.) -/
def isOpNode : Node → Bool
  | .op _ => true
  | _ => false

/-- The precedence-driven pop loop of the shunting-yard: given the
incoming operator and the operator stack (head = top), returns the
operators moved to the postfix sequence (in pop order) and the remaining
stack.  On equal precedence a left-to-right operator pops exactly one
entry and stops; a right-to-left one stops immediately. -/
def precPop (o : OpTok) : List Node → List Node × List Node
  | .op top :: rest =>
    if precedence o < precedence top then ([], .op top :: rest)
    else if precedence o == precedence top then
      if leftToRight o then ([.op top], rest) else ([], .op top :: rest)
    else
      let (moved, stack) := precPop o rest
      (.op top :: moved, stack)
  | other => ([], other)

/-! ## The recursive-descent parser

All mutually recursive parsing routines are organized as one record of
functions built by structural recursion on a fuel value: `parserFns
(fuel+1)` contains the routine bodies, whose every (mutually) recursive
call goes through `parserFns fuel`.  The fuel is an upper bound on the
recursion depth of the parse; running out of fuel is reported as a
parse failure and never happens on the concrete inputs used below (they
are run with ample fuel).  This tower shape keeps kernel evaluation of
concrete parses tractable. -/

structure ParserFns where
  exprLoop : PState → List FuncSig → List GlobalV → List ParamV →
    List LocalV → String → List String → List Node → List Node → Int →
    Option (List Node × Int) × PState
  exprParse : PState → List FuncSig → List GlobalV → List ParamV →
    List LocalV → Option ExprInfo × PState
  fnArgsLoop : PState → List FuncSig → List GlobalV → List ParamV →
    List LocalV → Nat → Option Nat × PState
  fnCallParse : PState → List FuncSig → List GlobalV → List ParamV →
    List LocalV → Option Node × PState
  typeParse : PState → List FuncSig → List GlobalV → List ParamV →
    List LocalV → Option TypeT × PState
  arrExprLoop : PState → List FuncSig → List GlobalV → List ParamV →
    List LocalV → List ExprInfo → Option (List ExprInfo) × PState
  arrExprParse : PState → List FuncSig → List GlobalV → List ParamV →
    List LocalV → Option (List ExprInfo) × PState
  stmtParse : PState → List FuncSig → List GlobalV → List ParamV →
    List LocalV → List String → List (String × Int) → String → String →
    Bool → Option Stmt × PState × List String × List (String × Int)
  compoundLoop : PState → List FuncSig → List GlobalV → List ParamV →
    List LocalV → List String → List (String × Int) → String → String →
    Bool → Option Stmt × PState × List String × List (String × Int)
  compoundParse : PState → List FuncSig → List GlobalV → List ParamV →
    List LocalV → List String → List (String × Int) → String → String →
    Bool → Option Stmt × PState × List String × List (String × Int)
  ifParse : PState → List FuncSig → List GlobalV → List ParamV →
    List LocalV → List String → List (String × Int) → String → String →
    Bool → Option Stmt × PState × List String × List (String × Int)
  forExprList : PState → List FuncSig → List GlobalV → List ParamV →
    List LocalV → Bool × PState
  forParse : PState → List FuncSig → List GlobalV → List ParamV →
    List LocalV → List String → List (String × Int) → String → String →
    Option Stmt × PState × List String × List (String × Int)
  whileParse : PState → List FuncSig → List GlobalV → List ParamV →
    List LocalV → List String → List (String × Int) → String → String →
    Option Stmt × PState × List String × List (String × Int)
  doWhileParse : PState → List FuncSig → List GlobalV → List ParamV →
    List LocalV → List String → List (String × Int) → String → String →
    Option Stmt × PState × List String × List (String × Int)
  returnParse : PState → List FuncSig → List GlobalV → List ParamV →
    List LocalV → String → Option Stmt × PState
  exprStmtParse : PState → List FuncSig → List GlobalV → List ParamV →
    List LocalV → Option Stmt × PState
  voidStmtParse : PState → List FuncSig → List GlobalV → List ParamV →
    List LocalV → Option Stmt × PState

/-- The out-of-fuel bottom of the parser tower: every routine reports
failure without consuming input. -/
def parserFnsNone : ParserFns where
  exprLoop := fun s _ _ _ _ _ _ _ _ _ => (none, s)
  exprParse := fun s _ _ _ _ => (none, s)
  fnArgsLoop := fun s _ _ _ _ _ => (none, s)
  fnCallParse := fun s _ _ _ _ => (none, s)
  typeParse := fun s _ _ _ _ => (none, s)
  arrExprLoop := fun s _ _ _ _ _ => (none, s)
  arrExprParse := fun s _ _ _ _ => (none, s)
  stmtParse := fun s _ _ _ _ labels gotos _ _ _ => (none, s, labels, gotos)
  compoundLoop := fun s _ _ _ _ labels gotos _ _ _ =>
    (none, s, labels, gotos)
  compoundParse := fun s _ _ _ _ labels gotos _ _ _ =>
    (none, s, labels, gotos)
  ifParse := fun s _ _ _ _ labels gotos _ _ _ => (none, s, labels, gotos)
  forExprList := fun s _ _ _ _ => (false, s)
  forParse := fun s _ _ _ _ labels gotos _ _ => (none, s, labels, gotos)
  whileParse := fun s _ _ _ _ labels gotos _ _ => (none, s, labels, gotos)
  doWhileParse := fun s _ _ _ _ labels gotos _ _ =>
    (none, s, labels, gotos)
  returnParse := fun s _ _ _ _ _ => (none, s)
  exprStmtParse := fun s _ _ _ _ => (none, s)
  voidStmtParse := fun s _ _ _ _ => (none, s)

/-- `GlobalVarToken::parse` (type and name already consumed by
`Parser::parse`): validation, optional constant initializer, trailing
semicolon. -/
def globalVarParse (P : ParserFns) (s : PState) (type : TypeT) (name : String)
    (funcs : List FuncSig) (globals : List GlobalV) :
    Option GlobalV × PState :=
  if type.name == "void" then
    (none, s.err "Global var cannot be of type \x27void\x27." type.line)
  else if !isValidName name then
    (none, s.err ("Invalid global var name \x27" ++ name ++ "\x27.")
      type.line)
  else if (getFunction name funcs).isSome then
    (none, s.err ("Global var \x27" ++ name ++
      "\x27 conflicts with existing function name.") type.line)
  else if (getGlobal name globals).isSome then
    (none, s.err ("Global var \x27" ++ name ++
      "\x27 conflicts with existing global var name.") type.line)
  else
    let (next, s) := s.next
    let finish := fun (value : Nat) (arrayValues : List Nat)
        (last : Atom) (s : PState) =>
      if last.str.isEmpty then
        (none, s.err "Unexpected EOF." last.line)
      else if last.str != ";" then
        (none, s.err ("Unexpected token \x27" ++ last.str ++
          "\x27, expected \x27;\x27.") last.line)
      else
        ((some ⟨name, type, value, arrayValues, type.line⟩ :
          Option GlobalV), s)
    if next.str == "=" then
      if type.isArray then
        match P.arrExprParse s funcs globals [] [] with
        | (none, s) => (none, s)
        | (some exprs, s) =>
          if exprs.length != type.arraySize then
            (none, s.err "Array size mismatch." type.line)
          else
            match exprs.find? (fun e => !e.isConst) with
            | some bad =>
              (none, s.err "Global value must be known at compile time."
                bad.line)
            | none =>
              let (last, s) := s.next
              finish 0 (exprs.map (fun e => e.value)) last s
      else
        match P.exprParse s funcs globals [] [] with
        | (none, s) => (none, s)
        | (some e, s) =>
          if !e.isConst then
            (none, s.err "Global value must be known at compile time."
              e.line)
          else
            let (last, s) := s.next
            finish e.value [] last s
    else if next.str == ";" then
      -- no value supplied: default 0 / all zeros
      if type.isArray then
        finish 0 (List.replicate type.arraySize 0) next s
      else finish 0 [] next s
    else
      finish 0 [] next s

/-- `ParamToken::parse`: type (no array, no void) and a fresh name. -/
def paramParse (P : ParserFns) (s : PState) (funcs : List FuncSig)
    (globals : List GlobalV) : Option ParamV × PState :=
  match P.typeParse s funcs globals [] [] with
  | (none, s) => (none, s)
  | (some type, s) =>
    if type.isArray then
      (none, s.err "Array parameter types not supported." type.line)
    else if type.name == "void" then
      (none, s.err "Parameter cannot be of type void." type.line)
    else
      let (nameTok, s) := s.next
      if nameTok.str.isEmpty then
        (none, s.err "Unexpected EOF." nameTok.line)
      else if !isValidName nameTok.str then
        (none, s.err ("Invalid parameter name \x27" ++ nameTok.str ++
          "\x27.") nameTok.line)
      else if (getFunction nameTok.str funcs).isSome then
        (none, s.err ("Parameter name \x27" ++ nameTok.str ++
          "\x27 conflicts with function name.") nameTok.line)
      else if (getGlobal nameTok.str globals).isSome then
        -- note: the C++ message really has two consecutive spaces here
        (none, s.err ("Parameter name \x27" ++ nameTok.str ++
          "\x27 conflicts with  global var name.") nameTok.line)
      else
        -- ParamToken never sets its own _lineNum: it stays -1
        (some ⟨nameTok.str, type, -1⟩, s)

/-- `LocalVarToken::parse`: type, fresh name, optional (not necessarily
constant) initializer, trailing semicolon. -/
def localVarParse (P : ParserFns) (s : PState) (funcs : List FuncSig)
    (globals : List GlobalV) (params : List ParamV) (locals : List LocalV) :
    Option LocalV × PState :=
  let lineNum : Int := s.peek.line
  match P.typeParse s funcs globals params locals with
  | (none, s) => (none, s)
  | (some type, s) =>
    if type.name == "void" then
      (none, s.err "Local var cannot be of type \x27void\x27." type.line)
    else
      let (nameTok, s) := s.next
      if nameTok.str.isEmpty then
        (none, s.err "Unexpected EOF." nameTok.line)
      else if !isValidName nameTok.str then
        (none, s.err ("Invalid local var name \x27" ++ nameTok.str ++
          "\x27.") type.line)
      else if (getFunction nameTok.str funcs).isSome then
        (none, s.err ("Local var \x27" ++ nameTok.str ++
          "\x27 conflicts with existing function name.") nameTok.line)
      else if (getGlobal nameTok.str globals).isSome then
        (none, s.err ("Local var \x27" ++ nameTok.str ++
          "\x27 conflicts with existing global var name.") nameTok.line)
      else if (getParameter nameTok.str params).isSome then
        (none, s.err ("Local var \x27" ++ nameTok.str ++
          "\x27 conflicts with existing parameter name.") nameTok.line)
      else if (getLocal nameTok.str locals).isSome then
        (none, s.err ("Local var \x27" ++ nameTok.str ++
          "\x27 conflicts with existing local var name.") nameTok.line)
      else
        let name := nameTok.str
        let finish := fun (last : Atom) (s : PState) =>
          if last.str.isEmpty then
            ((none : Option LocalV), s.err "Unexpected EOF." last.line)
          else if last.str != ";" then
            (none, s.err ("Unexpected token \x27" ++ last.str ++
              "\x27, expected \x27;\x27.") last.line)
          else (some ⟨name, type, lineNum⟩, s)
        let (next, s) := s.next
        if next.str == "=" then
          if type.isArray then
            match P.arrExprParse s funcs globals params locals with
            | (none, s) => (none, s)
            | (some exprs, s) =>
              if exprs.length != type.arraySize then
                (none, s.err "Array size mismatch." lineNum)
              else
                let (last, s) := s.next
                finish last s
          else
            match P.exprParse s funcs globals params locals with
            | (none, s) => (none, s)
            | (some _, s) =>
              let (last, s) := s.next
              finish last s
        else finish next s

/-- The token loop of `ExprToken::parse` (shunting-yard).  `prev` is the
previous-symbol marker, `parens` the parenthesis stack, `opStack` the
operator stack (head = top), `pfix` the postfix output so far, `ln` the
expression's `_lineNum` (-1 until the first token is seen).  On a
successful `break` the remaining operator stack is drained into the
postfix sequence. -/
def exprLoopF (P : ParserFns) : PState → List FuncSig → List GlobalV → List ParamV →
    List LocalV → String → List String → List Node → List Node → Int →
    Option (List Node × Int) × PState :=
  fun s funcs globals params locals prev parens opStack pfix ln =>
    let t := s.peek
    let ln := if ln == -1 then (t.line : Int) else ln
    if t.str == "(" then
      if !prev.isEmpty && prev != "(" && prev != "op" then
        (none, s.err ("Unexpected token \x27" ++ t.str ++
          "\x27 in expression.") t.line)
      else
        P.exprLoop s.skip funcs globals params locals "("
          ("(" :: parens) (.paren t.line :: opStack) pfix ln
    else if t.str == ")" || t.str == "]" then
      let mismatch := match parens with
        | p :: _ => otherParen t.str != p
        | [] => false
      if mismatch || (prev != ")" && prev != "val") then
        (none, s.err ("Unexpected token \x27" ++ t.str ++
          "\x27 in expression.") t.line)
      else
        match parens with
        | [] =>
          -- break out of the loop without consuming; drain the stack
          (some (pfix ++ opStack, ln), s)
        | _ :: parens' =>
          let moved := opStack.takeWhile isOpNode
          let rest := (opStack.dropWhile isOpNode).drop 1
          P.exprLoop s.skip funcs globals params locals ")" parens'
            rest (pfix ++ moved) ln
    else
      match litParse t.str with
      | some v =>
        if !prev.isEmpty && prev != "(" && prev != "op" then
          (none, s.err ("Unexpected token \x27" ++ t.str ++
            "\x27 in expression.") t.line)
        else
          P.exprLoop s.skip funcs globals params locals "val" parens
            opStack (pfix ++ [.lit v t.line]) ln
      | none =>
        if validOps.contains t.str then
          let binOk := maybeBinary t.str && (prev == ")" || prev == "val")
          let unOk := maybeUnary t.str &&
            (prev.isEmpty || prev == "(" || prev == "op")
          if !binOk && !unOk then
            (none, s.err ("Unexpected token \x27" ++ t.str ++
              "\x27 in expression.") t.line)
          else
            let o : OpTok := ⟨t.str, binOk, t.line⟩
            let (moved, opStack') := precPop o opStack
            let opStack'' := Node.op o :: opStack'
            let (parens', opStack''') :=
              if t.str == "[" then
                ("[" :: parens, Node.paren t.line :: opStack'')
              else (parens, opStack'')
            P.exprLoop s.skip funcs globals params locals "op" parens'
              opStack''' (pfix ++ moved) ln
        else if isValidName t.str then
          match getGlobal t.str globals with
          | some g =>
            P.exprLoop s.skip funcs globals params locals "val" parens
              opStack (pfix ++ [.globalRef g]) ln
          | none =>
            match getParameter t.str params with
            | some p =>
              P.exprLoop s.skip funcs globals params locals "val" parens
                opStack (pfix ++ [.paramRef p]) ln
            | none =>
              match getLocal t.str locals with
              | some l =>
                P.exprLoop s.skip funcs globals params locals "val"
                  parens opStack (pfix ++ [.localRef l]) ln
              | none =>
                match getFunction t.str funcs with
                | some f =>
                  if f.typeName == "void" then
                    (none, s.err ("Function call to \x27void " ++ f.name ++
                      "()\x27 not allowed in expression.") t.line)
                  else
                    match P.fnCallParse s funcs globals params locals with
                    | (none, s) => (none, s)
                    | (some callNode, s) =>
                      -- `continue`: the call consumed its own tokens
                      P.exprLoop s funcs globals params locals "val"
                        parens opStack (pfix ++ [callNode]) ln
                | none =>
                  (none, s.err ("Unknown token \x27" ++ t.str ++ "\x27.")
                    t.line)
        else if t.str.isEmpty then
          if !parens.isEmpty || (prev != ")" && prev != "val") then
            (none, s.err "Unexpected EOF in expression." t.line)
          else (some (pfix ++ opStack, ln), s)
        else
          if !parens.isEmpty || (prev != ")" && prev != "val") then
            (none, s.err ("Unexpected token \x27" ++ t.str ++
              "\x27 in expression.") t.line)
          else (some (pfix ++ opStack, ln), s)

/-- `ExprToken::parse`: run the shunting-yard loop, then `_validate`,
then `_evaluate`.  (`_flagNonRegs` only toggles register-eligibility
flags and affects neither parsing results nor diagnostics, so it has no
footprint here.) -/
def exprParseF (P : ParserFns) : PState → List FuncSig → List GlobalV → List ParamV →
    List LocalV → Option ExprInfo × PState :=
  fun s funcs globals params locals =>
    match P.exprLoop s funcs globals params locals "" [] [] [] (-1) with
    | (none, s) => (none, s)
    | (some (pfix, ln), s) =>
      match validateGo pfix [] with
      | .failed d => (none, s.addDiags [d])
      | .underflow => (none, s)   -- UB in the C++; unreachable
      | .ok =>
        match evaluateGo ln pfix [] [] with
        | .ok stack warns =>
          (some ⟨pfix, true,
            (match stack with | top :: _ => top.val | [] => 0), ln⟩,
           s.addDiags warns)
        | .nonconst warns => (some ⟨pfix, false, 0, ln⟩, s.addDiags warns)
        | .underflow => (none, s) -- UB in the C++; unreachable
        | .threw => (none, s)     -- uncaught throw in the C++; unreachable

/-- The argument-list loop of `FunctionCallToken::parse`. -/
def fnArgsLoopF (P : ParserFns) : PState → List FuncSig → List GlobalV → List ParamV →
    List LocalV → Nat → Option Nat × PState :=
  fun s funcs globals params locals count =>
    match P.exprParse s funcs globals params locals with
    | (none, s) => (none, s)
    | (some _, s) =>
      if s.peek.str != "," then (some (count + 1), s)
      else P.fnArgsLoop s.skip funcs globals params locals (count + 1)

/-- `FunctionCallToken::parse`: name, parenthesized argument list,
argument-count check, and the illegal-`main`-call check. -/
def fnCallParseF (P : ParserFns) : PState → List FuncSig → List GlobalV → List ParamV →
    List LocalV → Option Node × PState :=
  fun s funcs globals params locals =>
    let lineNum : Int := s.peek.line
    let (nameTok, s) := s.next
    if nameTok.str.isEmpty then (none, s.err "Unexpected EOF." nameTok.line)
    else if !isValidName nameTok.str then
      (none, s.err "Invalid name for a function." nameTok.line)
    else
      match getFunction nameTok.str funcs with
      | none =>
        (none, s.err ("Function \x27" ++ nameTok.str ++
          "\x27 does not exist.") lineNum)
      | some f =>
        match expectTok s "(" with
        | (false, s) => (none, s)
        | (true, s) =>
          let (argsRes, s) :=
            if s.peek.str != ")" then
              P.fnArgsLoop s funcs globals params locals 0
            else (some 0, s)
          match argsRes with
          | none => (none, s)
          | some numArgs =>
            match expectTok s ")" with
            | (false, s) => (none, s)
            | (true, s) =>
              if numArgs != f.params.length then
                (none, s.err ("Invalid function call, expected " ++
                  toString f.params.length ++ " arguments but got " ++
                  toString numArgs ++ ".") lineNum)
              else if f.name == "main" && f.typeName == "void" &&
                  f.params.length == 0 then
                (none, s.err ("Illegal call to \x27void main()\x27, the " ++
                  "entry point cannot be called from within the program.")
                  lineNum)
              else (some (.call f.name numArgs lineNum), s)

/-- `TypeToken::parse`: a type name, optionally followed by a
compile-time-constant array size in square brackets.  Note: no
positivity check is performed on the size. -/
def typeParseF (P : ParserFns) : PState → List FuncSig → List GlobalV → List ParamV →
    List LocalV → Option TypeT × PState :=
  fun s funcs globals params locals =>
    let (typeName, s) := s.next
    if !isType typeName.str then
      (none, s.err ("Invalid type \x27" ++ typeName.str ++ "\x27.")
        typeName.line)
    else
      let base : TypeT := ⟨typeName.str, false, 0, typeName.line⟩
      if s.peek.str == "[" then
        match P.exprParse s.skip funcs globals params locals with
        | (none, s) => (none, s)
        | (some e, s) =>
          if !e.isConst then
            (none, s.err "Array size must be known at compile time." e.line)
          else
            match expectTok s "]" with
            | (false, s) => (none, s)
            | (true, s) =>
              (some { base with isArray := true, arraySize := e.value }, s)
      else (some base, s)

/-- The element loop of `ArrayExprToken::parse`, after the opening
brace: expressions separated by commas, closed by `}`. -/
def arrExprLoopF (P : ParserFns) : PState → List FuncSig → List GlobalV → List ParamV →
    List LocalV → List ExprInfo → Option (List ExprInfo) × PState :=
  fun s funcs globals params locals acc =>
    match P.exprParse s funcs globals params locals with
    | (none, s) => (none, s)
    | (some e, s) =>
      let (next, s) := s.next
      if next.str == "\x7d" then (some (acc ++ [e]), s)
      else if next.str.isEmpty then (none, s.err "Unexpected EOF." next.line)
      else if next.str != "," then
        (none, s.err ("Unexpected token \x27" ++ next.str ++ "\x27.")
          next.line)
      else P.arrExprLoop s funcs globals params locals (acc ++ [e])

/-- `ArrayExprToken::parse`: a braced comma-separated expression list. -/
def arrExprParseF (P : ParserFns) : PState → List FuncSig → List GlobalV → List ParamV →
    List LocalV → Option (List ExprInfo) × PState :=
  fun s funcs globals params locals =>
    match expectTok s "\x7b" with
    | (false, s) => (none, s)
    | (true, s) =>
      if s.peek.str == "\x7d" then (some [], s.skip)
      else P.arrExprLoop s funcs globals params locals []

/-- `StatementToken::parse`: the statement dispatcher.  Returns the
statement together with the updated label and goto accumulators of the
enclosing function. -/
def stmtParseF (P : ParserFns) : PState → List FuncSig → List GlobalV → List ParamV →
    List LocalV → List String → List (String × Int) → String → String →
    Bool → Option Stmt × PState × List String × List (String × Int) :=
  fun s funcs globals params locals labels gotos curFuncType curFuncName inLoop =>
    let t := s.peek
    let function := getFunction t.str funcs
    if t.str.isEmpty then
      (none, s.err "Unexpected EOF." t.line, labels, gotos)
    else if t.str == "\x7b" then
      P.compoundParse s funcs globals params locals labels gotos
        curFuncType curFuncName inLoop
    else if t.str == "if" then
      P.ifParse s funcs globals params locals labels gotos curFuncType
        curFuncName inLoop
    else if t.str == "for" then
      P.forParse s funcs globals params locals labels gotos curFuncType
        curFuncName
    else if t.str == "while" then
      P.whileParse s funcs globals params locals labels gotos curFuncType
        curFuncName
    else if t.str == "do" then
      P.doWhileParse s funcs globals params locals labels gotos
        curFuncType curFuncName
    else if t.str == "break" then
      let (st, s) := breakParse s inLoop
      (st, s, labels, gotos)
    else if t.str == "continue" then
      let (st, s) := continueParse s inLoop
      (st, s, labels, gotos)
    else if t.str == "return" then
      let (st, s) := P.returnParse s funcs globals params locals
        curFuncType
      (st, s, labels, gotos)
    else if t.str == "goto" then
      match gotoParse s with
      | (none, s) => (none, s, labels, gotos)
      | (some (st, lineNum), s) =>
        match st with
        | .gotoS lbl => (some st, s, labels, gotos ++ [(lbl, lineNum)])
        | _ => (some st, s, labels, gotos)
    else if t.str == ";" then
      (some .nullS, s.skip, labels, gotos)
    else if isLabelDeclaration t.str then
      match labelParse s with
      | (none, s) => (none, s, labels, gotos)
      | (some st, s) =>
        match st with
        | .labelS nm => (some st, s, labels ++ [nm], gotos)
        | _ => (some st, s, labels, gotos)
    else if isType t.str then
      match localVarParse P s funcs globals params locals with
      | (none, s) => (none, s, labels, gotos)
      | (some v, s) => (some (.localDecl v), s, labels, gotos)
    else
      match function with
      | some f =>
        if f.typeName == "void" then
          let (st, s) := P.voidStmtParse s funcs globals params locals
          (st, s, labels, gotos)
        else
          let (st, s) := P.exprStmtParse s funcs globals params locals
          (st, s, labels, gotos)
      | none =>
        let (st, s) := P.exprStmtParse s funcs globals params locals
        (st, s, labels, gotos)

/-- The statement loop of `CompoundStatement::parse` (between braces);
rejects local variable declarations. -/
def compoundLoopF (P : ParserFns) : PState → List FuncSig → List GlobalV → List ParamV →
    List LocalV → List String → List (String × Int) → String → String →
    Bool → Option Stmt × PState × List String × List (String × Int) :=
  fun s funcs globals params locals labels gotos curFuncType curFuncName inLoop =>
    if s.peek.str == "\x7d" then (some .compound, s.skip, labels, gotos)
    else
      match P.stmtParse s funcs globals params locals labels gotos
          curFuncType curFuncName inLoop with
      | (none, s, labels, gotos) => (none, s, labels, gotos)
      | (some st, s, labels, gotos) =>
        match st with
        | .localDecl v =>
          (none, s.err ("Local variables can only be declared as top " ++
            "level statements in a function.") v.line, labels, gotos)
        | _ =>
          P.compoundLoop s funcs globals params locals labels gotos
            curFuncType curFuncName inLoop

/-- `CompoundStatement::parse`. -/
def compoundParseF (P : ParserFns) : PState → List FuncSig → List GlobalV → List ParamV →
    List LocalV → List String → List (String × Int) → String → String →
    Bool → Option Stmt × PState × List String × List (String × Int) :=
  fun s funcs globals params locals labels gotos curFuncType curFuncName inLoop =>
    match expectTok s "\x7b" with
    | (false, s) => (none, s, labels, gotos)
    | (true, s) =>
      P.compoundLoop s funcs globals params locals labels gotos
        curFuncType curFuncName inLoop

/-- `IfStatement::parse`. -/
def ifParseF (P : ParserFns) : PState → List FuncSig → List GlobalV → List ParamV →
    List LocalV → List String → List (String × Int) → String → String →
    Bool → Option Stmt × PState × List String × List (String × Int) :=
  fun s funcs globals params locals labels gotos curFuncType curFuncName inLoop =>
    match expectTok s "if" with
    | (false, s) => (none, s, labels, gotos)
    | (true, s) =>
      match expectTok s "(" with
      | (false, s) => (none, s, labels, gotos)
      | (true, s) =>
        match P.exprParse s funcs globals params locals with
        | (none, s) => (none, s, labels, gotos)
        | (some _, s) =>
          match expectTok s ")" with
          | (false, s) => (none, s, labels, gotos)
          | (true, s) =>
            match P.stmtParse s funcs globals params locals labels gotos
                curFuncType curFuncName inLoop with
            | (none, s, labels, gotos) => (none, s, labels, gotos)
            | (some _, s, labels, gotos) =>
              if s.peek.str == "else" then
                match P.stmtParse s.skip funcs globals params locals
                    labels gotos curFuncType curFuncName inLoop with
                | (none, s, labels, gotos) => (none, s, labels, gotos)
                | (some _, s, labels, gotos) =>
                  (some .ifS, s, labels, gotos)
              else (some .ifS, s, labels, gotos)

/-- The comma-separated expression-list loops of `ForStatement::parse`
(used for both the init list and the loop list). -/
def forExprListF (P : ParserFns) : PState → List FuncSig → List GlobalV → List ParamV →
    List LocalV → Bool × PState :=
  fun s funcs globals params locals =>
    match P.exprParse s funcs globals params locals with
    | (none, s) => (false, s)
    | (some _, s) =>
      if s.peek.str != "," then (true, s)
      else P.forExprList s.skip funcs globals params locals

/-- `ForStatement::parse`. -/
def forParseF (P : ParserFns) : PState → List FuncSig → List GlobalV → List ParamV →
    List LocalV → List String → List (String × Int) → String → String →
    Option Stmt × PState × List String × List (String × Int) :=
  fun s funcs globals params locals labels gotos curFuncType curFuncName =>
    match expectTok s "for" with
    | (false, s) => (none, s, labels, gotos)
    | (true, s) =>
      match expectTok s "(" with
      | (false, s) => (none, s, labels, gotos)
      | (true, s) =>
        let (initOk, s) :=
          if s.peek.str != ";" then
            P.forExprList s funcs globals params locals
          else (true, s)
        if !initOk then (none, s, labels, gotos)
        else
          match expectTok s ";" with
          | (false, s) => (none, s, labels, gotos)
          | (true, s) =>
            let (condOk, s) :=
              if s.peek.str == ";" then (true, s)
              else
                match P.exprParse s funcs globals params locals with
                | (none, s) => (false, s)
                | (some _, s) => (true, s)
            if !condOk then (none, s, labels, gotos)
            else
              match expectTok s ";" with
              | (false, s) => (none, s, labels, gotos)
              | (true, s) =>
                let (loopOk, s) :=
                  if s.peek.str != ")" then
                    P.forExprList s funcs globals params locals
                  else (true, s)
                if !loopOk then (none, s, labels, gotos)
                else
                  match expectTok s ")" with
                  | (false, s) => (none, s, labels, gotos)
                  | (true, s) =>
                    match P.stmtParse s funcs globals params locals
                        labels gotos curFuncType curFuncName true with
                    | (none, s, labels, gotos) => (none, s, labels, gotos)
                    | (some _, s, labels, gotos) =>
                      (some .forS, s, labels, gotos)

/-- `WhileStatement::parse`. -/
def whileParseF (P : ParserFns) : PState → List FuncSig → List GlobalV → List ParamV →
    List LocalV → List String → List (String × Int) → String → String →
    Option Stmt × PState × List String × List (String × Int) :=
  fun s funcs globals params locals labels gotos curFuncType curFuncName =>
    match expectTok s "while" with
    | (false, s) => (none, s, labels, gotos)
    | (true, s) =>
      match expectTok s "(" with
      | (false, s) => (none, s, labels, gotos)
      | (true, s) =>
        match P.exprParse s funcs globals params locals with
        | (none, s) => (none, s, labels, gotos)
        | (some _, s) =>
          match expectTok s ")" with
          | (false, s) => (none, s, labels, gotos)
          | (true, s) =>
            match P.stmtParse s funcs globals params locals labels
                gotos curFuncType curFuncName true with
            | (none, s, labels, gotos) => (none, s, labels, gotos)
            | (some _, s, labels, gotos) => (some .whileS, s, labels, gotos)

/-- `DoWhileStatement::parse`. -/
def doWhileParseF (P : ParserFns) : PState → List FuncSig → List GlobalV → List ParamV →
    List LocalV → List String → List (String × Int) → String → String →
    Option Stmt × PState × List String × List (String × Int) :=
  fun s funcs globals params locals labels gotos curFuncType curFuncName =>
    match expectTok s "do" with
    | (false, s) => (none, s, labels, gotos)
    | (true, s) =>
      match P.stmtParse s funcs globals params locals labels gotos
          curFuncType curFuncName true with
      | (none, s, labels, gotos) => (none, s, labels, gotos)
      | (some _, s, labels, gotos) =>
        match expectTok s "while" with
        | (false, s) => (none, s, labels, gotos)
        | (true, s) =>
          match expectTok s "(" with
          | (false, s) => (none, s, labels, gotos)
          | (true, s) =>
            match P.exprParse s funcs globals params locals with
            | (none, s) => (none, s, labels, gotos)
            | (some _, s) =>
              match expectTok s ")" with
              | (false, s) => (none, s, labels, gotos)
              | (true, s) =>
                match expectTok s ";" with
                | (false, s) => (none, s, labels, gotos)
                | (true, s) => (some .doWhileS, s, labels, gotos)

/-- `ReturnStatement::parse`: optional expression, then the void-ness
coherence checks against the enclosing function's return type. -/
def returnParseF (P : ParserFns) : PState → List FuncSig → List GlobalV → List ParamV →
    List LocalV → String → Option Stmt × PState :=
  fun s funcs globals params locals curFuncType =>
    let lineNum : Int := s.peek.line
    match expectTok s "return" with
    | (false, s) => (none, s)
    | (true, s) =>
      let (hasExpr, exprOk, s) :=
        if s.peek.str != ";" then
          match P.exprParse s funcs globals params locals with
          | (none, s) => (true, false, s)
          | (some _, s) => (true, true, s)
        else (false, true, s)
      if !exprOk then (none, s)
      else
        match expectTok s ";" with
        | (false, s) => (none, s)
        | (true, s) =>
          if hasExpr && curFuncType == "void" then
            (none, s.err "Cannot return a value from a void function."
              lineNum)
          else if !hasExpr && curFuncType != "void" then
            (none, s.err ("Return statement must include a value in a " ++
              "non-void function.") lineNum)
          else (some (.returnS hasExpr), s)

/-- `ExprStatement::parse`: an expression followed by a semicolon. -/
def exprStmtParseF (P : ParserFns) : PState → List FuncSig → List GlobalV → List ParamV →
    List LocalV → Option Stmt × PState :=
  fun s funcs globals params locals =>
    match P.exprParse s funcs globals params locals with
    | (none, s) => (none, s)
    | (some _, s) =>
      match expectTok s ";" with
      | (false, s) => (none, s)
      | (true, s) => (some .exprS, s)

/-- `VoidStatement::parse`: a void function call followed by a
semicolon. -/
def voidStmtParseF (P : ParserFns) : PState → List FuncSig → List GlobalV → List ParamV →
    List LocalV → Option Stmt × PState :=
  fun s funcs globals params locals =>
    let lineNum : Int := s.peek.line
    match P.fnCallParse s funcs globals params locals with
    | (none, s) => (none, s)
    | (some callNode, s) =>
      let fnName := match callNode with
        | .call nm _ _ => nm
        | _ => ""
      let okVoid := match getFunction fnName funcs with
        | some f => f.typeName == "void"
        | none => false
      if !okVoid then
        (none, s.err "Expected function call to be of type \x27void\x27."
          lineNum)
      else
        match expectTok s ";" with
        | (false, s) => (none, s)
        | (true, s) => (some (.voidCall fnName), s)

/-- One level of the parser tower, assembled from the routine bodies
above (every recursive call goes through the previous level `P`). -/
def parserFnsStep (P : ParserFns) : ParserFns where
  exprLoop := exprLoopF P
  exprParse := exprParseF P
  fnArgsLoop := fnArgsLoopF P
  fnCallParse := fnCallParseF P
  typeParse := typeParseF P
  arrExprLoop := arrExprLoopF P
  arrExprParse := arrExprParseF P
  stmtParse := stmtParseF P
  compoundLoop := compoundLoopF P
  compoundParse := compoundParseF P
  ifParse := ifParseF P
  forExprList := forExprListF P
  forParse := forParseF P
  whileParse := whileParseF P
  doWhileParse := doWhileParseF P
  returnParse := returnParseF P
  exprStmtParse := exprStmtParseF P
  voidStmtParse := voidStmtParseF P

/-- The parser tower: structural recursion on the fuel. -/
def parserFns : Nat → ParserFns
  | 0 => parserFnsNone
  | fuel + 1 => parserFnsStep (parserFns fuel)

/-- `ExprToken::parse`'s shunting-yard loop at a given fuel. -/
def exprLoop (fuel : Nat) (s : PState) (funcs : List FuncSig)
    (globals : List GlobalV) (params : List ParamV) (locals : List LocalV)
    (prev : String) (parens : List String) (opStack : List Node)
    (pfix : List Node) (ln : Int) : Option (List Node × Int) × PState :=
  (parserFns fuel).exprLoop s funcs globals params locals prev parens
    opStack pfix ln

/-- `ExprToken::parse` at a given fuel. -/
def exprParse (fuel : Nat) (s : PState) (funcs : List FuncSig)
    (globals : List GlobalV) (params : List ParamV)
    (locals : List LocalV) : Option ExprInfo × PState :=
  (parserFns fuel).exprParse s funcs globals params locals

/-- `FunctionCallToken::parse` at a given fuel. -/
def fnCallParse (fuel : Nat) (s : PState) (funcs : List FuncSig)
    (globals : List GlobalV) (params : List ParamV)
    (locals : List LocalV) : Option Node × PState :=
  (parserFns fuel).fnCallParse s funcs globals params locals

/-- `TypeToken::parse` at a given fuel. -/
def typeParse (fuel : Nat) (s : PState) (funcs : List FuncSig)
    (globals : List GlobalV) (params : List ParamV)
    (locals : List LocalV) : Option TypeT × PState :=
  (parserFns fuel).typeParse s funcs globals params locals

/-- `StatementToken::parse` at a given fuel. -/
def stmtParse (fuel : Nat) (s : PState) (funcs : List FuncSig)
    (globals : List GlobalV) (params : List ParamV) (locals : List LocalV)
    (labels : List String) (gotos : List (String × Int))
    (curFuncType curFuncName : String) (inLoop : Bool) :
    Option Stmt × PState × List String × List (String × Int) :=
  (parserFns fuel).stmtParse s funcs globals params locals labels gotos
    curFuncType curFuncName inLoop


/-- The parameter-list loop of `FunctionToken::parse`. -/
def funcParamLoop (P : ParserFns) : Nat → PState → List FuncSig →
    List GlobalV → List ParamV → Option (List ParamV) × PState
  | 0, s, _, _, _ => (none, s)
  | iter + 1, s, funcs, globals, acc =>
    if s.peek.str == ")" then (some acc, s)
    else
      match paramParse P s funcs globals with
      | (none, s) => (none, s)
      | (some p, s) =>
        if (getParameter p.name acc).isSome then
          (none, s.err ("Parameter \x27" ++ p.name ++
            "\x27 conflicts with existing parameter name.") p.line)
        else
          let acc := acc ++ [p]
          let t := s.peek
          if t.str.isEmpty then
            (none, s.err "Unexpected EOF." t.line)
          else if t.str == "," then
            funcParamLoop P iter s.skip funcs globals acc
          else if t.str != ")" then
            (none, s.err ("Unexpected token \x27" ++ t.str ++ "\x27.")
              t.line)
          else funcParamLoop P iter s funcs globals acc

/-- The body-statement loop of `FunctionToken::parse`: local variable
declarations must come first; labels and gotos accumulate. -/
def funcBodyLoop (P : ParserFns) : Nat → PState → List FuncSig →
    List GlobalV → List ParamV → List LocalV → List String →
    List (String × Int) → String → String → Bool →
    Option (List LocalV × List String × List (String × Int)) × PState
  | 0, s, _, _, _, _, _, _, _, _, _ => (none, s)
  | iter + 1, s, funcs, globals, params, locals, labels, gotos,
      curFuncType, curFuncName, inDecls =>
    if s.peek.str == "\x7d" then (some (locals, labels, gotos), s.skip)
    else
      match P.stmtParse s funcs globals params locals labels gotos
          curFuncType curFuncName false with
      | (none, s, _, _) => (none, s)
      | (some st, s, labels, gotos) =>
        let step := fun (locals : List LocalV) (inDecls : Bool)
            (s : PState) =>
          let t := s.peek
          if t.str.isEmpty then
            ((none : Option (List LocalV × List String ×
              List (String × Int))), s.err "Unexpected EOF." t.line)
          else
            funcBodyLoop P iter s funcs globals params locals labels
              gotos curFuncType curFuncName inDecls
        match st with
        | .localDecl v =>
          if !inDecls then
            (none, s.err ("Declarations must come before other " ++
              "statements in function \x27" ++ curFuncName ++ "()\x27.")
              v.line)
          else step (locals ++ [v]) inDecls s
        | _ => step locals false s

/-- `FunctionToken::parse` (type and name already consumed): signature
validation, parameter list, self-registration in the function table,
body, and the goto/label coherence check.  Returns the overall success
flag and the updated function table (the function adds itself before its
body is parsed, enabling recursion but not forward references). -/
def funcParse (P : ParserFns) (s : PState) (type : TypeT) (name : String)
    (funcs : List FuncSig) (globals : List GlobalV) :
    Bool × PState × List FuncSig :=
  if type.isArray then
    (false, s.err "Function return type cannot be array-valued." type.line,
      funcs)
  else if !isValidName name then
    (false, s.err ("Invalid function name \x27" ++ name ++ "\x27.")
      type.line, funcs)
  else if (getFunction name funcs).isSome then
    (false, s.err ("Function \x27" ++ name ++
      "\x27 conflicts with existing function name.") type.line, funcs)
  else if (getGlobal name globals).isSome then
    (false, s.err ("Function \x27" ++ name ++
      "\x27 conflicts with existing global var name.") type.line, funcs)
  else
    match expectTok s "(" with
    | (false, s) => (false, s, funcs)
    | (true, s) =>
      match funcParamLoop P (s.toks.length + 1) s funcs globals [] with
      | (none, s) => (false, s, funcs)
      | (some params, s) =>
        let s := s.skip  -- consume the closing parenthesis
        let self : FuncSig := ⟨type.name, name, params⟩
        let funcs := funcs ++ [self]
        match expectTok s "\x7b" with
        | (false, s) => (false, s, funcs)
        | (true, s) =>
          match funcBodyLoop P (s.toks.length + 1) s funcs globals
              params [] [] [] type.name name true with
          | (none, s) => (false, s, funcs)
          | (some (_, labels, gotos), s) =>
            -- make sure every goto matches a declared label
            let s := gotos.foldl (fun (s : PState) g =>
              if labels.contains g.1 then s
              else s.err ("Label \x27" ++ g.1 ++
                "\x27 does not exist in function \x27" ++ name ++
                "\x27 for goto statement.") g.2) s
            (gotos.all (fun g => labels.contains g.1), s, funcs)

/-- The top-level declaration loop of `Parser::parse`: alternate between
global variables and functions until the token stream ends. -/
def topLoop (P : ParserFns) : Nat → PState → List FuncSig → List GlobalV →
    Bool × PState × List FuncSig × List GlobalV
  | 0, s, funcs, globals => (false, s, funcs, globals)
  | iter + 1, s, funcs, globals =>
    if s.peek.str.isEmpty then (true, s, funcs, globals)
    else
      match P.typeParse s funcs globals [] [] with
      | (none, s) => (false, s, funcs, globals)
      | (some type, s) =>
        let (nameTok, s) := s.next
        if nameTok.str.isEmpty then
          -- the C++ passes a message that itself starts with "Error:"
          (false, s.err ("Error: Unexpected EOF, expected global or " ++
            "function name.") (-1), funcs, globals)
        else if s.peek.str == "(" then
          match funcParse P s type nameTok.str funcs globals with
          | (false, s, funcs) => (false, s, funcs, globals)
          | (true, s, funcs) => topLoop P iter s funcs globals
        else
          match globalVarParse P s type nameTok.str funcs globals with
          | (none, s) => (false, s, funcs, globals)
          | (some g, s) => topLoop P iter s funcs (globals ++ [g])

/-- `Parser::parse`: the declaration loop followed by the
`void main()` entry-point check. -/
def parserParse (fuel : Nat) (toks : List Atom) (eofLine : Nat) :
    Bool × PState × List FuncSig × List GlobalV :=
  let s : PState := ⟨toks, eofLine, []⟩
  match topLoop (parserFns fuel) (toks.length + 1) s builtinFuncs [] with
  | (false, s, funcs, globals) => (false, s, funcs, globals)
  | (true, s, funcs, globals) =>
    match getFunction "main" funcs with
    | none =>
      (false, s.err "No \x27void main()\x27 entry point found." (-1),
        funcs, globals)
    | some entry =>
      if entry.typeName != "void" || entry.params.length != 0 then
        (false, s.err "No \x27void main()\x27 entry point found." (-1),
          funcs, globals)
      else (true, s, funcs, globals)

/-- End-to-end front end: tokenize a source text and parse it.  Returns
the success flag, the diagnostics, and the parsed symbol tables. -/
def compileProgram (src : String) : Bool × List String × List FuncSig ×
    List GlobalV :=
  let (toks, lineEnd) := tokenizeFull src
  let (ok, s, funcs, globals) :=
    parserParse (20 * (toks.length + 10)) toks lineEnd
  (ok, s.diags, funcs, globals)

/-! ## The instruction writer of parser.cpp

`Parser::writeInst` / `writeData` / `writeln`, including the pending
`PUSH` register of the peephole optimizer and the `_bytePos` counter
(a `uint16_t`).  Output lines are tagged by the method that emitted
them, so the byte length of the emitted stream can be recomputed:
an instruction line renders as eight spaces plus its text, a data line
likewise, and a label line is written verbatim. -/

/-- One line of the output stream. -/
inductive OutLine where
  | inst (text : String)
  | data (text : String) (len : Nat)
  | lbl (text : String)
  deriving Repr, DecidableEq

/-- The writer state: `_pendingPushReg` (with `none` for the empty
string), the lines written so far, and `_bytePos`. -/
structure Writer where
  pending : Option String
  outLines : List OutLine
  bytePos : Nat
  deriving Repr, DecidableEq

def Writer.init : Writer := ⟨none, [], 0⟩

/-- The flush at the start of `Parser::writeln`: a pending `PUSH` is
written to the output file (as an instruction line) without touching
`_bytePos`. -/
def flushPending (w : Writer) : Writer :=
  match w.pending with
  | some r =>
    { w with pending := none,
             outLines := w.outLines ++ [.inst ("PUSH " ++ r)] }
  | none => w

/-- `Parser::writeln`. -/
def writeln (w : Writer) (l : OutLine) : Writer :=
  let w := flushPending w
  { w with outLines := w.outLines ++ [l] }

/-- The fall-through of `Parser::writeInst`: write the line and advance
`_bytePos` by `INST_SIZE` (4), wrapping as a `uint16_t`. -/
def writeInstRaw (w : Writer) (inst : String) : Writer :=
  let w := writeln w (.inst inst)
  { w with bytePos := (w.bytePos + 4) % 65536 }

/-- `Parser::writeInst` with the PUSH/POP peephole: a `PUSH` is deferred
when nothing is pending; a `POP` with a pending `PUSH` cancels
(same register) or becomes a single `MOV` (different registers, via the
recursive `writeInst` call, which then takes the fall-through path);
anything else takes the fall-through path (flushing any pending `PUSH`
through `writeln`). -/
def writeInst (w : Writer) (inst : String) : Writer :=
  if w.pending == none && inst.toList.take 4 == "PUSH".toList then
    { w with pending := some (String.mk (inst.toList.drop 5)) }
  else
    match w.pending with
    | some pushReg =>
      if inst.toList.take 3 == "POP".toList then
        let popReg := String.mk (inst.toList.drop 4)
        let w := { w with pending := none }
        if popReg != pushReg then
          writeInstRaw w ("MOV " ++ popReg ++ " " ++ pushReg)
        else w
      else writeInstRaw w inst
    | none => writeInstRaw w inst

/-- The `uint16_t` while-loop of `writeData` that pads `_bytePos` up to
a multiple of `INST_SIZE` (4), in closed form. -/
def padTo4 (b : Nat) : Nat := (b + (4 - b % 4) % 4) % 65536

/-- `Parser::writeData`: write the line, then advance `_bytePos` by
`dataLength * DATA_SIZE` (2) and pad it to an instruction boundary. -/
def writeData (w : Writer) (data : String) (len : Nat) : Writer :=
  let w := writeln w (.data data len)
  { w with bytePos := padTo4 ((w.bytePos + len * 2) % 65536) }

/-- An abstract write action: every interaction of the global-variable
and function emitters with the writer goes through one of the three
methods. -/
inductive WriteAct where
  | winst (s : String)
  | wdata (s : String) (n : Nat)
  | wline (l : OutLine)
  deriving Repr, DecidableEq

def applyAct (w : Writer) : WriteAct → Writer
  | .winst i => writeInst w i
  | .wdata d n => writeData w d n
  | .wline l => writeln w l

def runActs (acts : List WriteAct) (w : Writer) : Writer :=
  acts.foldl applyAct w

/-- The writer skeleton of `Parser::output`: the bootloader
(`MOVI SP <stack>`, `CALL main`, the `program_finished` label and its
self-jump), then the emissions of all globals and functions (an
arbitrary action list here), and finally the stack label.  The label
strings are parameters (they were minted by `getUnusedLabel`
beforehand). -/
def parserOutput (stackLabel finishedLabel : String)
    (acts : List WriteAct) : Writer :=
  let w := Writer.init
  let w := writeInst w ("MOVI SP " ++ stackLabel)
  let w := writeInst w "CALL main"
  let w := writeln w (.lbl (finishedLabel ++ ":"))
  let w := writeInst w ("JMPI " ++ finishedLabel)
  let w := runActs acts w
  writeln w (.lbl (stackLabel ++ ":"))

/-- The cumulative byte length of an output stream, computed with the
same `uint16_t` arithmetic the byte counter uses: 4 bytes per
instruction line, `2 * len` bytes per data line padded to a 4-byte
boundary, nothing for labels. -/
def lineBytesStep (acc : Nat) : OutLine → Nat
  | .inst _ => (acc + 4) % 65536
  | .data _ len => padTo4 ((acc + len * 2) % 65536)
  | .lbl _ => acc

def expectedBytes (lines : List OutLine) : Nat :=
  lines.foldl lineBytesStep 0

/-! ## The register/stack allocator of `FunctionToken::output`

The prologue of `FunctionToken::output` assigns parameters to registers
A–D positionally with overflow parameters at negative frame offsets,
assigns register-eligible locals to E–K with spills at non-negative
offsets, pushes the callee-saved registers and FP, and finally adjusts
the overflow parameters' offsets by the number of extra pushed
registers.  Registers are modelled by their character codes
(`'A'.toNat = 65`). -/

/-- What the allocator needs to know about a parameter: whether its
address was taken (`canBeReg`). -/
structure PParam where
  canBeReg : Bool
  deriving Repr, DecidableEq

/-- What the allocator needs to know about a local. -/
structure PLocal where
  canBeReg : Bool
  isArray : Bool
  arraySize : Nat
  deriving Repr, DecidableEq

/-- A parameter's storage after allocation: register (char code) and/or
frame-pointer offset; `none` mirrors a field the C++ never set. -/
structure VarAlloc where
  reg : Option Nat
  offset : Option Int
  deriving Repr, DecidableEq

/-- A local's storage after allocation. -/
structure LocalAlloc where
  reg : Option Nat
  offset : Option Int
  dataOffset : Option Int
  deriving Repr, DecidableEq

/-- The first parameter loop: registers A through D, then stack offsets
-2, -4, … (`offset` starts at `-ADDRESS_SIZE` and decreases by
`DATA_SIZE`). -/
def allocParams : List PParam → Nat → Int → List VarAlloc
  | [], _, _ => []
  | _ :: ps, regC, off =>
    if regC ≤ 'D'.toNat then
      ⟨some regC, none⟩ :: allocParams ps (regC + 1) off
    else
      ⟨none, some off⟩ :: allocParams ps regC (off - 2)

/-- The local-variable loop: registers E through K for
register-eligible locals (each pushed, decrementing
`extraParamOffset` by `DATA_SIZE`), stack offsets 0, 2, … otherwise;
arrays additionally reserve `arraySize * DATA_SIZE` bytes at
`dataOffset`.  Returns the allocations, the final stack offset, the
accumulated `extraParamOffset`, and the number of locals that received
registers. -/
def allocLocals : List PLocal → Nat → Int → Int →
    List LocalAlloc × Int × Int × Nat
  | [], _, off, extra => ([], off, extra, 0)
  | l :: ls, regC, off, extra =>
    let (alloc1, off1, regC', extra', savedHere) :=
      if regC ≤ 'K'.toNat && l.canBeReg then
        ((⟨some regC, none, none⟩ : LocalAlloc), off, regC + 1,
          extra - 2, 1)
      else
        (⟨none, some off, none⟩, off + 2, regC, extra, 0)
    let (alloc2, off2) :=
      if l.isArray then
        ({ alloc1 with dataOffset := some (off1 + 2) },
          off1 + 2 * (l.arraySize : Int))
      else (alloc1, off1)
    let (allocs, offEnd, extraEnd, saved) := allocLocals ls regC' off2 extra'
    (alloc2 :: allocs, offEnd, extraEnd, savedHere + saved)

/-- The post-`MOV FP SP` parameter fix-up loop: spill register-resident
address-taken parameters to fresh positive offsets, and shift every
stack-resident parameter's offset by `extraParamOffset`. -/
def adjustParams : List (PParam × VarAlloc) → Int → Int →
    List VarAlloc × Int
  | [], off, _ => ([], off)
  | (p, a) :: rest, off, extra =>
    if a.reg.isSome && !p.canBeReg then
      let (allocs, offEnd) := adjustParams rest (off + 2) extra
      ({ a with offset := some off } :: allocs, offEnd)
    else if a.reg.isNone then
      let (allocs, offEnd) := adjustParams rest off extra
      ({ a with offset := (match a.offset with
                           | some o => some (o + extra)
                           | none => none) } :: allocs, offEnd)
    else
      let (allocs, offEnd) := adjustParams rest off extra
      (a :: allocs, offEnd)

/-- The full allocation performed by the prologue of
`FunctionToken::output`, up to the point where the body's statements
are emitted: returns the parameters' storage, the locals' storage, the
total reserved stack offset, and the number of locals that received
callee-saved registers. -/
def funcAlloc (params : List PParam) (locals : List PLocal) :
    List VarAlloc × List LocalAlloc × Int × Nat :=
  let pAllocs := allocParams params ('A'.toNat) (-2)
  let (lAllocs, off, extra0, savedLocals) :=
    allocLocals locals ('E'.toNat) 0 0
  -- PUSH FP: one more saved register
  let extra := extra0 - 2
  let (finalParams, offEnd) := adjustParams (params.zip pAllocs) off extra
  (finalParams, lAllocs, offEnd, savedLocals)

/-! ## Concrete material used by the claim theorems -/

/-- A scalar `uint16` global named `a` (as produced by parsing
`uint16 a;` on line 1). -/
def gA : GlobalV := ⟨"a", ⟨"uint16", false, 0, 1⟩, 0, [], 1⟩

/-- A scalar `uint16` global named `b`. -/
def gB : GlobalV := ⟨"b", ⟨"uint16", false, 0, 1⟩, 0, [], 1⟩

/-- A scalar `uint16` global named `c`. -/
def gC : GlobalV := ⟨"c", ⟨"uint16", false, 0, 1⟩, 0, [], 1⟩

/-- The atom stream of the expression `a = b = c`. -/
def abcToks : List Atom :=
  [⟨"a", 1⟩, ⟨"=", 1⟩, ⟨"b", 1⟩, ⟨"=", 1⟩, ⟨"c", 1⟩]

/-- The postfix sequence the shunting-yard actually produces for
`a = b = c`: `a b = c =` (left-associated). -/
def abcPfix : List Node :=
  [.globalRef gA, .globalRef gB, .op ⟨"=", true, 1⟩,
   .globalRef gC, .op ⟨"=", true, 1⟩]

/-- The postfix sequence the claim predicts for `a = b = c`:
`a b c = =` (right-associated). -/
def abcPfixClaimed : List Node :=
  [.globalRef gA, .globalRef gB, .globalRef gC,
   .op ⟨"=", true, 1⟩, .op ⟨"=", true, 1⟩]

/-- A program whose `main` calls a function declared later in the file
(a forward reference). -/
def fwdSrc : String :=
  "void main ( ) \x7b foo ( ) ; \x7d void foo ( ) \x7b \x7d"

/-- The same program with the two functions swapped (a backward
reference). -/
def bwdSrc : String :=
  "void foo ( ) \x7b \x7d void main ( ) \x7b foo ( ) ; \x7d"

/-- A program whose global initializer divides by zero. -/
def divZeroSrc : String := "uint16 x = 1 / 0 ; void main ( ) \x7b \x7d"

/-- A program whose global initializer takes a modulus by zero. -/
def modZeroSrc : String := "uint16 x = 7 % 0 ; void main ( ) \x7b \x7d"

/-- A program declaring a zero-length array global. -/
def zeroArrSrc : String := "uint16 [ 0 ] a ; void main ( ) \x7b \x7d"

/-- The atom stream of the type `uint16[0]`. -/
def zeroArrToks : List Atom :=
  [⟨"uint16", 1⟩, ⟨"[", 1⟩, ⟨"0", 1⟩, ⟨"]", 1⟩]

/-- The atom stream of the expression `1[0]`. -/
def idxToks : List Atom := [⟨"1", 1⟩, ⟨"[", 1⟩, ⟨"0", 1⟩, ⟨"]", 1⟩]

/-- The postfix sequence of `1[0]`. -/
def idxPfix : List Node := [.lit 1 1, .lit 0 1, .op ⟨"[", true, 1⟩]

/-- The node kinds the claim about `isConst` enumerates, which are also
exactly the early-exit conditions of `_evaluate` other than the
array-indexing ones: parameter references, local references, function
calls, binary assignment, unary dereference, unary address-of. -/
def offendingNode : Node → Bool
  | .paramRef _ | .localRef _ | .call _ _ _ => true
  | .op o =>
    (o.op == "=" && o.binary) ||
    ((o.op == "&" || o.op == "*") && !o.binary)
  | _ => false

/-- Is a node the array-indexing operator? -/
def isBracketOp : Node → Bool
  | .op o => o.op == "[" && o.binary
  | _ => false

/-- Well-formedness of a postfix node as the parser produces it: every
operator's unary/binary flag is consistent with `maybeBinary` /
`maybeUnary`, and no stray parenthesis markers remain. -/
def nodeWF : Node → Bool
  | .op o => if o.binary then maybeBinary o.op else maybeUnary o.op
  | .paren _ => false
  | _ => true

/-- The expression info `ExprToken::parse` produces for `1 + 2`
(postfix `1 2 +`, constant, value 3). -/
def onePlusTwoInfo : ExprInfo :=
  ⟨[.lit 1 1, .lit 2 1, .op ⟨"+", true, 1⟩], true, 3, 1⟩


/-! ## Claim C5 -/

/-- C5: the claim (and the repository's own language documentation)
says name resolution of globals and functions is order-independent, so
that a function body may reference a function declared later in the
file.  The single-pass parser disagrees: the backward-reference program
compiles, while the forward-reference version of the very same program
fails with `Unknown token 'foo'.` because `foo` is not yet in any
symbol table when `main`'s body is parsed. -/
theorem c5_theorem :
    (compileProgram bwdSrc).1 = true ∧
    (compileProgram bwdSrc).2.1 = [] ∧
    (compileProgram fwdSrc).1 = false ∧
    (compileProgram fwdSrc).2.1 = [errorDiag "Unknown token \x27foo\x27." 1] := by
  decide

/-! ## Claim C6 -/

/-- C6 counterexample: `TypeToken::parse` accepts the array type
`uint16[0]` (size 0) without any diagnostic, and the whole program
`uint16[0] a;` with a `main` compiles cleanly — the claimed rejection
of zero-sized arrays does not exist in the code. -/
theorem c6_counterexample :
    (typeParse 20 ⟨zeroArrToks, 1, []⟩ builtinFuncs [] [] []).1 =
      some ⟨"uint16", true, 0, 1⟩ ∧
    (typeParse 20 ⟨zeroArrToks, 1, []⟩ builtinFuncs [] [] []).2.diags = [] ∧
    (compileProgram zeroArrSrc).1 = true ∧
    (compileProgram zeroArrSrc).2.1 = [] := by
  decide

/-- C6 as amended: every array type accepted by `TypeToken::parse` has
a size that is a compile-time constant — the size is the value of a
successfully parsed size expression whose `isConst()` holds (non-const
sizes are rejected) — but no positivity check is performed, so 0 is an
acceptable size. -/
theorem c6_theorem (fuel : Nat) (s : PState) (funcs : List FuncSig)
    (globals : List GlobalV) (params : List ParamV) (locals : List LocalV)
    (tt : TypeT)
    (h : (typeParse fuel s funcs globals params locals).1 = some tt)
    (harr : tt.isArray = true) :
    ∃ (e : ExprInfo) (s1 s2 : PState),
      exprParse (fuel - 1) s1 funcs globals params locals = (some e, s2) ∧
      e.isConst = true ∧ tt.arraySize = e.value := by
  match fuel with
  | 0 =>
    exact absurd h (by simp [typeParse, parserFns, parserFnsNone])
  | n + 1 =>
    simp only [typeParse, parserFns, parserFnsStep] at h
    unfold typeParseF at h
    rcases hx : s.next with ⟨typeName, s1⟩
    simp only [hx] at h
    simp only [Nat.add_sub_cancel, exprParse]
    split at h
    · simp at h
    · split at h
      · rcases he : (parserFns n).exprParse s1.skip funcs globals params locals
          with ⟨eo, s2⟩
        simp only [he] at h
        match eo with
        | none => simp at h
        | some e =>
          simp only at h
          split at h
          · simp at h
          · next hconst =>
            split at h
            · simp at h
            · simp only [Option.some.injEq] at h
              subst h
              exact ⟨e, s1.skip, s2, he, by simpa using hconst, rfl⟩
      · simp only [Option.some.injEq] at h
        subst h
        simp at harr

/-- C6 witness: the amended statement at the concrete type `uint16[3]`. -/
theorem c6_theorem_witness :
    ∃ (e : ExprInfo) (s1 s2 : PState),
      exprParse (20 - 1) s1 builtinFuncs [] [] [] = (some e, s2) ∧
      e.isConst = true ∧ (⟨"uint16", true, 3, 1⟩ : TypeT).arraySize = e.value :=
  c6_theorem 20 ⟨[⟨"uint16", 1⟩, ⟨"[", 1⟩, ⟨"3", 1⟩, ⟨"]", 1⟩], 1, []⟩
    builtinFuncs [] [] [] ⟨"uint16", true, 3, 1⟩ (by decide) (by decide)

/-! ## Claim C8 -/

/-- C8: during constant folding, `/` or `%` with a zero right operand is
not fatal: `operate` emits a `Warning:<line>:` diagnostic and yields
0xFFFF (for any left operand and line), and an expression containing a
division by zero still parses successfully — end to end, the programs
`uint16 x = 1 / 0;` and `uint16 x = 7 % 0;` compile with exactly the
division-by-zero warning, and `x` receives the value 0xFFFF. -/
theorem c8_theorem :
    (∀ lhs line, operate ⟨"/", true, line⟩ lhs 0 =
      some (0xffff, [warnDiag "Division by zero in expression." line])) ∧
    (∀ lhs line, operate ⟨"%", true, line⟩ lhs 0 =
      some (0xffff, [warnDiag "Division by zero in expression." line])) ∧
    (compileProgram divZeroSrc).1 = true ∧
    (compileProgram divZeroSrc).2.1 =
      [warnDiag "Division by zero in expression." 1] ∧
    (getGlobal "x" (compileProgram divZeroSrc).2.2.2).map GlobalV.value =
      some 0xffff ∧
    (compileProgram modZeroSrc).1 = true ∧
    (compileProgram modZeroSrc).2.1 =
      [warnDiag "Division by zero in expression." 1] := by
  refine ⟨fun lhs line => rfl, fun lhs line => rfl, ?_, ?_, ?_, ?_, ?_⟩ <;>
    decide

/-! ## Claim C3 -/

/-- C3 counterexample: for `a = b = c` the shunting-yard produces the
left-associated postfix `a b = c =`, not the claimed right-associated
`a b c = =` (and `leftToRight` is `true`, not `false`, for binary
`=`). -/
theorem c3_counterexample :
    leftToRight ⟨"=", true, 1⟩ = true ∧
    (exprLoop 50 ⟨abcToks, 1, []⟩ builtinFuncs [gA, gB, gC] [] []
      "" [] [] [] (-1)).1 = some (abcPfix, 1) ∧
    abcPfix ≠ abcPfixClaimed := by
  decide

/-- C3 as amended: `=` does have precedence 13, but
`leftToRight()` returns `isBinary()`, hence `true` for every binary
operator including `=`; chained assignment therefore folds
left-associatively, `a = b = c` produces the postfix `a b = c =`
(grouping as `(a = b) = c`), and the expression is then rejected by the
lvalue validation pass with `Can't assign to an rvalue in
expression.`. -/
theorem c3_theorem :
    (∀ line, precedence ⟨"=", true, line⟩ = 13) ∧
    (∀ o : OpTok, leftToRight o = o.binary) ∧
    (exprLoop 50 ⟨abcToks, 1, []⟩ builtinFuncs [gA, gB, gC] [] []
      "" [] [] [] (-1)).1 = some (abcPfix, 1) ∧
    (exprParse 50 ⟨abcToks, 1, []⟩ builtinFuncs [gA, gB, gC] [] []).1 =
      none ∧
    (exprParse 50 ⟨abcToks, 1, []⟩ builtinFuncs [gA, gB, gC] [] []).2.diags =
      [errorDiag "Can\x27t assign to an rvalue in expression." 1] := by
  refine ⟨fun line => rfl, fun o => rfl, ?_, ?_, ?_⟩ <;> decide

/-! ## Claim C4 -/

/-- C4 counterexample: the expression `1[0]` is accepted by
`ExprToken::parse`, its postfix sequence contains none of the node kinds
the claim enumerates (no parameter/local/call, no assignment, no unary
dereference or address-of), yet `isConst()` is false — the
array-indexing path of `_evaluate` also produces non-constant
expressions, which the claimed "if and only if" omits. -/
theorem c4_counterexample :
    (exprParse 50 ⟨idxToks, 1, []⟩ builtinFuncs [] [] []).1 =
      some ⟨idxPfix, false, 0, 1⟩ ∧
    idxPfix.any offendingNode = false := by
  decide

/-- A well-formed non-offending non-bracket operator never makes
`operate` throw: it always returns a value (division by zero included,
which yields `0xffff` plus a warning). -/
lemma operate_wf_some (o : OpTok)
    (hwf : (if o.binary then maybeBinary o.op else maybeUnary o.op) = true)
    (hne : offendingNode (.op o) = false)
    (hnb : isBracketOp (.op o) = false)
    (l r : Nat) : ∃ v w, operate o l r = some (v, w) := by
  obtain ⟨op, bin, line⟩ := o
  cases bin
  · simp only [if_false, Bool.false_eq_true] at hwf
    have hmem : op ∈ ["-", "*", "&", "~", "!", "+"] := by
      simpa [maybeUnary] using hwf
    simp only [offendingNode, Bool.not_false, Bool.and_true,
      Bool.or_eq_false_iff, Bool.and_eq_false_iff] at hne
    fin_cases hmem <;> simp_all [operate]
  · simp only [if_true] at hwf
    have hmem : op ∈ ["+", "-", "*", "/", "%", "=", "&", "|", "^", "||",
        "&&", "<", "<=", ">", ">=", "==", "!=", "[", "<<", ">>"] := by
      simpa [maybeBinary] using hwf
    fin_cases hmem <;>
      first
      | (exact ⟨_, _, rfl⟩)
      | (simp [offendingNode] at hne; done)
      | (simp [isBracketOp] at hnb; done)
      | (cases hr : (r == 0) <;> simp [operate, hr])

/-- The `_evaluate` walk on a well-formed bracket-free postfix
sequence: unless the stack underflows (unreachable for parser-produced
sequences), it never throws, and it ends in one of the `_const = false`
early exits exactly when the sequence contains an offending node. -/
lemma evalGo_spec (ln : Int) :
    ∀ (l : List Node) (st : List EvOperand) (w : List String),
    l.all nodeWF = true → l.any isBracketOp = false →
    evaluateGo ln l st w = .underflow ∨
    (evaluateGo ln l st w ≠ .threw ∧
      ((∃ ws, evaluateGo ln l st w = .nonconst ws) ↔
        l.any offendingNode = true)) := by
  intro l
  induction l with
  | nil =>
    intro st w _ _
    right
    exact ⟨by simp [evaluateGo], by simp [evaluateGo]⟩
  | cons n rest ih =>
    intro st w hwf hnb
    rw [List.all_cons, Bool.and_eq_true] at hwf
    rw [List.any_cons, Bool.or_eq_false_iff] at hnb
    obtain ⟨hwf1, hwfr⟩ := hwf
    obtain ⟨hnb1, hnbr⟩ := hnb
    cases n with
    | paren d =>
      simp [nodeWF] at hwf1
    | lit v line =>
      have hstep : evaluateGo ln (Node.lit v line :: rest) st w =
          evaluateGo ln rest (.lit v :: st) w := rfl
      rw [hstep]
      rcases ih (.lit v :: st) w hwfr hnbr with h | ⟨h1, h2⟩
      · exact Or.inl h
      · exact Or.inr ⟨h1, by simpa [offendingNode] using h2⟩
    | globalRef g =>
      have hstep : evaluateGo ln (Node.globalRef g :: rest) st w =
          evaluateGo ln rest (.glob g :: st) w := rfl
      rw [hstep]
      rcases ih (.glob g :: st) w hwfr hnbr with h | ⟨h1, h2⟩
      · exact Or.inl h
      · exact Or.inr ⟨h1, by simpa [offendingNode] using h2⟩
    | paramRef p =>
      right
      exact ⟨by simp [evaluateGo], by simp [evaluateGo, offendingNode]⟩
    | localRef v =>
      right
      exact ⟨by simp [evaluateGo], by simp [evaluateGo, offendingNode]⟩
    | call f a line =>
      right
      exact ⟨by simp [evaluateGo], by simp [evaluateGo, offendingNode]⟩
    | op o =>
      obtain ⟨oop, obin, oline⟩ := o
      cases obin
      · -- unary operator
        cases st with
        | nil => exact Or.inl rfl
        | cons rhs st' =>
          cases hoff : offendingNode (.op ⟨oop, false, oline⟩) with
          | true =>
            right
            have hp : oop = "&" ∨ oop = "*" := by
              simpa [offendingNode] using hoff
            refine ⟨?_, ?_⟩
            · simp [evaluateGo, hp]
            · simp [evaluateGo, hp, List.any_cons, hoff]
          | false =>
            have hp : ¬(oop = "&" ∨ oop = "*") := by
              simpa [offendingNode] using hoff
            obtain ⟨v, ws, hv⟩ := operate_wf_some ⟨oop, false, oline⟩
              (by simpa [nodeWF] using hwf1) hoff hnb1 0 rhs.val
            have hstep : evaluateGo ln (Node.op ⟨oop, false, oline⟩ :: rest)
                (rhs :: st') w =
                evaluateGo ln rest (.lit v :: st') (w ++ ws) := by
              simp [evaluateGo, hp, hv]
            rw [hstep]
            rcases ih (.lit v :: st') (w ++ ws) hwfr hnbr with h | ⟨h1, h2⟩
            · exact Or.inl h
            · exact Or.inr ⟨h1, by simpa [hoff] using h2⟩
      · -- binary operator
        cases st with
        | nil => exact Or.inl rfl
        | cons rhs st' =>
          cases st' with
          | nil => exact Or.inl rfl
          | cons lhs st'' =>
            cases hoff : offendingNode (.op ⟨oop, true, oline⟩) with
            | true =>
              right
              have hp : oop = "=" := by
                simpa [offendingNode] using hoff
              refine ⟨?_, ?_⟩
              · simp [evaluateGo, hp]
              · simp [evaluateGo, hp, List.any_cons, hoff]
                exact Or.inl (by simp [offendingNode])
            | false =>
              have hp : ¬ oop = "=" := by
                simpa [offendingNode] using hoff
              have hq : ¬ oop = "[" := by
                simpa [isBracketOp] using hnb1
              obtain ⟨v, ws, hv⟩ := operate_wf_some ⟨oop, true, oline⟩
                (by simpa [nodeWF] using hwf1) hoff hnb1 lhs.val rhs.val
              have hstep : evaluateGo ln (Node.op ⟨oop, true, oline⟩ :: rest)
                  (rhs :: lhs :: st'') w =
                  evaluateGo ln rest (.lit v :: st'') (w ++ ws) := by
                simp [evaluateGo, hp, hq, hv]
              rw [hstep]
              rcases ih (.lit v :: st'') (w ++ ws) hwfr hnbr with h | ⟨h1, h2⟩
              · exact Or.inl h
              · exact Or.inr ⟨h1, by simpa [hoff] using h2⟩

/-- C4 as amended: for every expression accepted by
`ExprToken::parse` whose postfix sequence is free of the array-indexing
operator, `isConst()` is false if and only if the postfix sequence
contains a parameter reference, a local-variable reference, a function
call, a binary assignment, a unary dereference, or a unary address-of
(`offendingNode`): exactly the early `_const = false` exits of
`_evaluate` other than the array-indexing ones. -/
theorem c4_theorem (fuel : Nat) (s : PState) (funcs : List FuncSig)
    (globals : List GlobalV) (params : List ParamV) (locals : List LocalV)
    (e : ExprInfo) (s2 : PState)
    (h : exprParse fuel s funcs globals params locals = (some e, s2))
    (hwf : e.pfix.all nodeWF = true)
    (hnb : e.pfix.any isBracketOp = false) :
    (e.isConst = false ↔ e.pfix.any offendingNode = true) := by
  match fuel with
  | 0 =>
    simp [exprParse, parserFns, parserFnsNone] at h
  | fuel + 1 =>
    simp only [exprParse, parserFns, parserFnsStep] at h
    unfold exprParseF at h
    rcases hx : (parserFns fuel).exprLoop s funcs globals params locals
        "" [] [] [] (-1) with ⟨r, s1⟩
    simp only [hx] at h
    match r with
    | none => simp at h
    | some (pfix, ln) =>
      simp only at h
      rcases hval : validateGo pfix [] with _ | d | _ <;>
        simp only [hval] at h
      · rcases hev : evaluateGo ln pfix [] [] with ⟨stack, warns⟩ | warns | ⟨⟩ | ⟨⟩ <;>
          simp only [hev] at h
        · simp only [Prod.mk.injEq, Option.some.injEq] at h
          obtain ⟨he, -⟩ := h
          subst he
          simp only at hwf hnb ⊢
          rcases evalGo_spec ln pfix [] [] hwf hnb with hu | ⟨-, hiff⟩
          · rw [hev] at hu
            exact absurd hu (by simp)
          · rw [hev] at hiff
            have hany : pfix.any offendingNode = false := by
              cases hq : pfix.any offendingNode
              · rfl
              · obtain ⟨ws, hws⟩ := hiff.mpr hq
                exact absurd hws (by simp)
            simp [hany]
        · simp only [Prod.mk.injEq, Option.some.injEq] at h
          obtain ⟨he, -⟩ := h
          subst he
          simp only at hwf hnb ⊢
          rcases evalGo_spec ln pfix [] [] hwf hnb with hu | ⟨-, hiff⟩
          · rw [hev] at hu
            exact absurd hu (by simp)
          · rw [hev] at hiff
            simp [hiff.mp ⟨warns, rfl⟩]
        · simp at h
        · simp at h
      · simp at h
      · simp at h

theorem c4_theorem_witness :
    exprParse 20 ⟨[⟨"1", 1⟩, ⟨"+", 1⟩, ⟨"2", 1⟩], 1, []⟩ builtinFuncs
        [] [] [] = (some onePlusTwoInfo, ⟨[], 1, []⟩) ∧
    (onePlusTwoInfo.isConst = false ↔
      onePlusTwoInfo.pfix.any offendingNode = true) :=
  ⟨by decide, c4_theorem 20 ⟨[⟨"1", 1⟩, ⟨"+", 1⟩, ⟨"2", 1⟩], 1, []⟩
    builtinFuncs [] [] [] onePlusTwoInfo ⟨[], 1, []⟩ (by decide) (by decide)
    (by decide)⟩

/-! ## Claim C9 -/

/-- A name character differs from every character outside the name
classes. -/
lemma nameRest_ne_char (c : Char) (h : isNameRest c = true) (x : Char)
    (hx : isNameRest x = false) : (c == x) = false := by
  cases ho : c == x
  · rfl
  · have he : c = x := by simpa using ho
    subst he
    simp [h] at hx

/-- A name character is not one of the single-character punctuators. -/
lemma nameRest_not_oneCharOp (c : Char) (h : isNameRest c = true) :
    oneCharOp c = false := by
  unfold oneCharOp
  rw [nameRest_ne_char c h '+' (by decide), nameRest_ne_char c h '-' (by decide),
    nameRest_ne_char c h '*' (by decide), nameRest_ne_char c h '/' (by decide),
    nameRest_ne_char c h '%' (by decide), nameRest_ne_char c h '&' (by decide),
    nameRest_ne_char c h '|' (by decide), nameRest_ne_char c h '^' (by decide),
    nameRest_ne_char c h '=' (by decide), nameRest_ne_char c h '<' (by decide),
    nameRest_ne_char c h '>' (by decide), nameRest_ne_char c h '!' (by decide),
    nameRest_ne_char c h '~' (by decide), nameRest_ne_char c h ',' (by decide),
    nameRest_ne_char c h ';' (by decide), nameRest_ne_char c h '[' (by decide),
    nameRest_ne_char c h ']' (by decide), nameRest_ne_char c h '(' (by decide),
    nameRest_ne_char c h ')' (by decide), nameRest_ne_char c h '\x7b' (by decide),
    nameRest_ne_char c h '\x7d' (by decide)]
  rfl

/-- A name character is not whitespace. -/
lemma nameRest_not_ws (c : Char) (h : isNameRest c = true) :
    isWs c = false := by
  unfold isWs
  rw [nameRest_ne_char c h ' ' (by decide), nameRest_ne_char c h '\t' (by decide),
    nameRest_ne_char c h '\n' (by decide), nameRest_ne_char c h '\x0d' (by decide)]
  rfl

/-- A name character starts no two-character operator. -/
lemma nameRest_not_two (c : Char) (h : isNameRest c = true) (d : Char) :
    twoCharOp c d = false := by
  unfold twoCharOp
  rw [nameRest_ne_char c h '|' (by decide), nameRest_ne_char c h '&' (by decide),
    nameRest_ne_char c h '=' (by decide), nameRest_ne_char c h '!' (by decide),
    nameRest_ne_char c h '<' (by decide), nameRest_ne_char c h '>' (by decide)]
  rfl

/-- A lone `:` is appended to the current atom (it matches no operator
table) and the stream ends. -/
lemma getNextGo_colon (acc : List Char) (prev : Option Char) (ln : Nat) :
    getNextGo [':'] prev ln acc false false = (acc ++ [':'], [], ln) := rfl

/-- The absorption run of tokenizer rule 5: a maximal run of name
characters followed by `:` is consumed into a single atom. -/
lemma getNextGo_absorb (cs : List Char)
    (hmem : ∀ c ∈ cs, isNameRest c = true) :
    ∀ (acc : List Char) (prev : Option Char) (ln : Nat),
    getNextGo (cs ++ [':']) prev ln acc false false =
      (acc ++ (cs ++ [':']), [], ln) := by
  induction cs with
  | nil =>
    intro acc prev ln
    exact getNextGo_colon acc prev ln
  | cons c cs ih =>
    intro acc prev ln
    have hc := hmem c (List.mem_cons_self c cs)
    have hrest : ∀ x ∈ cs, isNameRest x = true :=
      fun x hx => hmem x (List.mem_cons_of_mem _ hx)
    have h1 := nameRest_not_ws c hc
    have h2 := nameRest_ne_char c hc '/' (by decide)
    have h3 := nameRest_not_oneCharOp c hc
    have h4 := nameRest_ne_char c hc '\n' (by decide)
    rw [List.cons_append]
    simp only [getNextGo]
    cases cs with
    | nil =>
      simp [h1, h2, h3, h4, nameRest_not_two c hc, getNextGo_colon]
    | cons d ds =>
      rw [List.cons_append]
      simp only [h1, h2, h3, h4, nameRest_not_two c hc, Bool.false_and,
        Bool.false_eq_true, if_false]
      have ihx := ih hrest (acc ++ [c]) (some c) ln
      rw [List.cons_append] at ihx
      simp [h1, h2, h3, h4, nameRest_not_two c hc, ihx]

/-- C9 counterexample: the tokenizer does not emit `:` as its own
punctuator atom; `foo:` is tokenized as the single atom `"foo:"`, not
as the two atoms `"foo"`, `":"` the claim describes (indeed `:` is in
no operator table of the tokenizer). -/
theorem c9_counterexample :
    tokenize "foo:" = [⟨"foo:", 1⟩] ∧
    tokenize "foo:" ≠ [⟨"foo", 1⟩, ⟨":", 1⟩] ∧
    oneCharOp ':' = false := by
  decide

/-- C9 as amended: `:` is absent from the tokenizer's operator tables,
so it is absorbed into the adjacent preceding identifier run by the
greedy fall-through rule: for every valid name `s`, the source `s:` is
tokenized as the single atom `s:` — which is exactly the shape
`isLabelDeclaration` accepts, so a label declaration reaches the
statement parser as one atom, not two. -/
theorem c9_theorem (s : String) (h : isValidName s = true) :
    tokenize (s ++ ":") = [⟨s ++ ":", 1⟩] ∧
    isLabelDeclaration (s ++ ":") = true := by
  obtain ⟨l⟩ := s
  have hl : (String.mk l ++ ":").toList = l ++ [':'] := rfl
  have hmem : ∀ c ∈ l, isNameRest c = true := by
    unfold isValidName isValidNameL at h
    cases l with
    | nil => exact fun c hc => absurd hc (List.not_mem_nil c)
    | cons c0 cs =>
      simp only [String.toList] at h
      simp only [Bool.and_eq_true, List.all_eq_true] at h
      intro c hc
      rcases List.mem_cons.mp hc with rfl | hc'
      · unfold isNameRest
        rw [h.1]
        rfl
      · exact h.2 c hc'
  constructor
  · show (tokenizeGo ((String.mk l ++ ":").toList.length + 1)
      (String.mk l ++ ":").toList 1).1 = _
    rw [hl, List.length_append]
    simp only [List.length_cons, List.length_nil, Nat.zero_add]
    simp only [tokenizeGo]
    rw [getNextGo_absorb l hmem [] none 1]
    simp [tokenizeGo, getNextGo]
    rfl
  · unfold isLabelDeclaration
    simp only [hl]
    have hg : (l ++ [':']).getLast? = some ':' := by
      simp [List.getLast?_append]
    have hd : (l ++ [':']).dropLast = l := by
      simp
    rw [hg, hd]
    simpa [isValidName] using h

/-- C9 witness: the amended statement at the concrete label `foo:`. -/
theorem c9_theorem_witness :
    tokenize ("foo" ++ ":") = [⟨"foo" ++ ":", 1⟩] ∧
    isLabelDeclaration ("foo" ++ ":") = true :=
  c9_theorem "foo" (by decide)

/-! ## Claim C1 -/

/-- `String.toList` distributes over append. -/
lemma data_append (s t : String) : (s ++ t).toList = s.toList ++ t.toList := rfl

/-- Taking 4 characters of an appended string only sees a long-enough
prefix. -/
lemma take4_append (pre post : String) (hlen : 4 ≤ pre.toList.length) :
    ((pre ++ post).toList.take 4) = pre.toList.take 4 := by
  rw [data_append, List.take_append_of_le_length hlen]

/-- The pending-`PUSH` flush only appends output lines. -/
lemma flushPending_outLines (w : Writer) :
    ∃ t, (flushPending w).outLines = w.outLines ++ t := by
  unfold flushPending
  cases w.pending
  · exact ⟨[], by simp⟩
  · exact ⟨_, rfl⟩

/-- `Parser::writeln` only appends output lines. -/
lemma writeln_outLines (w : Writer) (l : OutLine) :
    ∃ t, (writeln w l).outLines = w.outLines ++ t := by
  unfold writeln
  obtain ⟨t, ht⟩ := flushPending_outLines w
  exact ⟨t ++ [l], by simp [ht]⟩

/-- The `writeInst` fall-through only appends output lines. -/
lemma writeInstRaw_outLines (w : Writer) (i : String) :
    ∃ t, (writeInstRaw w i).outLines = w.outLines ++ t := by
  unfold writeInstRaw
  obtain ⟨t, ht⟩ := writeln_outLines w (.inst i)
  exact ⟨t, ht⟩

/-- `Parser::writeInst` only appends output lines. -/
lemma writeInst_outLines (w : Writer) (i : String) :
    ∃ t, (writeInst w i).outLines = w.outLines ++ t := by
  unfold writeInst
  split
  · exact ⟨[], by simp⟩
  · rcases hp : w.pending with _ | r
    · simpa using writeInstRaw_outLines w i
    · simp only
      split
      · split
        · obtain ⟨t, ht⟩ :=
            writeInstRaw_outLines { w with pending := none }
              ("MOV " ++ String.mk (i.toList.drop 4) ++ " " ++ r)
          exact ⟨t, ht⟩
        · exact ⟨[], by simp⟩
      · simpa using writeInstRaw_outLines w i

/-- `Parser::writeData` only appends output lines. -/
lemma writeData_outLines (w : Writer) (d : String) (n : Nat) :
    ∃ t, (writeData w d n).outLines = w.outLines ++ t := by
  unfold writeData
  obtain ⟨t, ht⟩ := writeln_outLines w (.data d n)
  exact ⟨t, ht⟩

/-- Every write action only appends output lines. -/
lemma applyAct_outLines (w : Writer) (a : WriteAct) :
    ∃ t, (applyAct w a).outLines = w.outLines ++ t := by
  cases a with
  | winst i => exact writeInst_outLines w i
  | wdata d n => exact writeData_outLines w d n
  | wline l => exact writeln_outLines w l

/-- A sequence of write actions only appends output lines. -/
lemma runActs_outLines (acts : List WriteAct) :
    ∀ w : Writer, ∃ t, (runActs acts w).outLines = w.outLines ++ t := by
  induction acts with
  | nil => exact fun w => ⟨[], by simp [runActs]⟩
  | cons a acts ih =>
    intro w
    obtain ⟨t1, h1⟩ := applyAct_outLines w a
    obtain ⟨t2, h2⟩ := ih (applyAct w a)
    refine ⟨t1 ++ t2, ?_⟩
    have : runActs (a :: acts) w = runActs acts (applyAct w a) := rfl
    rw [this, h2, h1, List.append_assoc]

/-- `Parser::writeln` makes its argument the last output line. -/
lemma writeln_getLast (w : Writer) (l : OutLine) :
    (writeln w l).outLines.getLast? = some l := by
  unfold writeln
  exact List.getLast?_concat _

/-- The first bootloader write from the initial writer state. -/
lemma writeInst_movi (lbl : String) :
    writeInst Writer.init ("MOVI SP " ++ lbl) =
      ⟨none, [.inst ("MOVI SP " ++ lbl)], 4⟩ := by
  have hc : ((("MOVI SP " ++ lbl).toList.take 4) == "PUSH".toList) = false := by
    rw [take4_append "MOVI SP " lbl (by decide)]
    decide
  simp [writeInst, hc, writeInstRaw, writeln, flushPending, Writer.init]

/-- The second bootloader write: `CALL main`. -/
lemma writeInst_call (lbl : String) :
    writeInst ⟨none, [.inst ("MOVI SP " ++ lbl)], 4⟩ "CALL main" =
      ⟨none, [.inst ("MOVI SP " ++ lbl), .inst "CALL main"], 8⟩ := by
  simp [writeInst, writeInstRaw, writeln, flushPending]

/-- A `JMPI` write with no pending `PUSH` is a plain append. -/
lemma writeInst_jmpi (w : Writer) (hp : w.pending = none) (lbl : String) :
    writeInst w ("JMPI " ++ lbl) =
      { w with outLines := w.outLines ++ [.inst ("JMPI " ++ lbl)],
               bytePos := (w.bytePos + 4) % 65536 } := by
  have hc : ((("JMPI " ++ lbl).toList.take 4) == "PUSH".toList) = false := by
    rw [take4_append "JMPI " lbl (by decide)]
    decide
  simp [writeInst, hc, hp, writeInstRaw, writeln, flushPending]

/-- C1: for every parsed program (any list of global/function emissions
`acts`), the stream written by `Parser::output` begins with the
bootloader `MOVI SP <stack>`, `CALL main`, the `program_finished` label
and its self-`JMPI`, and its very last line is the stack label
`<stack>:`. -/
theorem c1_theorem (stackLabel finishedLabel : String)
    (acts : List WriteAct) :
    (parserOutput stackLabel finishedLabel acts).outLines.take 4 =
      [.inst ("MOVI SP " ++ stackLabel), .inst "CALL main",
       .lbl (finishedLabel ++ ":"), .inst ("JMPI " ++ finishedLabel)] ∧
    (parserOutput stackLabel finishedLabel acts).outLines.getLast? =
      some (.lbl (stackLabel ++ ":")) := by
  unfold parserOutput
  dsimp only
  rw [writeInst_movi, writeInst_call]
  have hwl : writeln ⟨none, [.inst ("MOVI SP " ++ stackLabel),
      .inst "CALL main"], 8⟩ (.lbl (finishedLabel ++ ":")) =
      ⟨none, [.inst ("MOVI SP " ++ stackLabel), .inst "CALL main",
        .lbl (finishedLabel ++ ":")], 8⟩ := by
    simp [writeln, flushPending]
  rw [hwl, writeInst_jmpi _ rfl]
  simp only [List.cons_append, List.nil_append]
  norm_num
  obtain ⟨t, ht⟩ := runActs_outLines acts
    ⟨none, [.inst ("MOVI SP " ++ stackLabel), .inst "CALL main",
      .lbl (finishedLabel ++ ":"), .inst ("JMPI " ++ finishedLabel)], 12⟩
  obtain ⟨t2, ht2⟩ := writeln_outLines
    (runActs acts ⟨none, [.inst ("MOVI SP " ++ stackLabel),
      .inst "CALL main", .lbl (finishedLabel ++ ":"),
      .inst ("JMPI " ++ finishedLabel)], 12⟩)
    (.lbl (stackLabel ++ ":"))
  constructor
  · rw [ht2, ht, List.append_assoc, List.take_append_of_le_length (by simp)]
    rfl
  · exact writeln_getLast _ _

/-! ## Claim C7 -/

/-- Dropping the fixed-size prefix of an appended string leaves the
second summand. -/
lemma mk_drop_append (pre r : String) (n : Nat)
    (h : pre.toList.length = n) :
    String.mk ((pre ++ r).toList.drop n) = r := by
  rw [data_append, List.drop_left' h]
  rfl

/-- C7: the PUSH/POP peephole of `Parser::writeInst`: a `PUSH r` is
deferred when nothing is pending; a following `POP r` cancels the pair
with no output; a following `POP r2` (`r2 ≠ r`) produces exactly the
single instruction `MOV r2 r`; any other instruction flushes the
deferred `PUSH r` verbatim before itself; and a label or data write
(through `writeln` / `writeData`) also flushes it verbatim. -/
theorem c7_theorem (w : Writer) (r r2 inst : String) (l : OutLine)
    (d : String) (n : Nat) :
    (w.pending = none →
      writeInst w ("PUSH " ++ r) = { w with pending := some r }) ∧
    (w.pending = some r →
      writeInst w ("POP " ++ r) = { w with pending := none }) ∧
    (w.pending = some r → r2 ≠ r →
      writeInst w ("POP " ++ r2) =
        ⟨none, w.outLines ++ [.inst ("MOV " ++ r2 ++ " " ++ r)],
         (w.bytePos + 4) % 65536⟩) ∧
    (w.pending = some r → inst.toList.take 3 ≠ "POP".toList →
      writeInst w inst =
        ⟨none, w.outLines ++ [.inst ("PUSH " ++ r), .inst inst],
         (w.bytePos + 4) % 65536⟩) ∧
    (w.pending = some r →
      writeln w l = ⟨none, w.outLines ++ [.inst ("PUSH " ++ r), l],
        w.bytePos⟩) ∧
    (w.pending = some r →
      writeData w d n = ⟨none, w.outLines ++ [.inst ("PUSH " ++ r),
        .data d n], padTo4 ((w.bytePos + n * 2) % 65536)⟩) := by
  refine ⟨?_, ?_, ?_, ?_, ?_, ?_⟩
  · intro hp
    have hc : ((("PUSH " ++ r).toList.take 4) == "PUSH".toList) = true := by
      rw [take4_append "PUSH " r (by decide)]
      decide
    simp [writeInst, hp, hc, mk_drop_append "PUSH " r 5 (by decide)]
  · intro hp
    have hc3 : ((("POP " ++ r).toList.take 3) == "POP".toList) = true := by
      have : ("POP " ++ r).toList.take 3 = "POP ".toList.take 3 := by
        rw [data_append, List.take_append_of_le_length (by decide)]
      rw [this]
      decide
    simp [writeInst, hp, hc3, mk_drop_append "POP " r 4 (by decide)]
  · intro hp hne
    have hc3 : ((("POP " ++ r2).toList.take 3) == "POP".toList) = true := by
      have : ("POP " ++ r2).toList.take 3 = "POP ".toList.take 3 := by
        rw [data_append, List.take_append_of_le_length (by decide)]
      rw [this]
      decide
    have hbne : (r2 != r) = true := bne_iff_ne.mpr hne
    simp [writeInst, hp, hc3, mk_drop_append "POP " r2 4 (by decide),
      hbne, writeInstRaw, writeln, flushPending]
  · intro hp hpop
    have hpop2 : List.take 3 inst.data ≠ ['P', 'O', 'P'] := by
      simpa using hpop
    simp [writeInst, hp, hpop2, writeInstRaw, writeln, flushPending]
  · intro hp
    simp [writeln, flushPending, hp]
  · intro hp
    simp [writeData, writeln, flushPending, hp]

/-- C7 witness: the five peephole behaviours at concrete writers. -/
theorem c7_theorem_witness :
    writeInst ⟨none, [], 0⟩ ("PUSH " ++ "A") = ⟨some "A", [], 0⟩ ∧
    writeInst ⟨some "A", [], 0⟩ ("POP " ++ "A") = ⟨none, [], 0⟩ ∧
    writeInst ⟨some "A", [], 0⟩ ("POP " ++ "B") =
      ⟨none, [.inst ("MOV " ++ "B" ++ " " ++ "A")], (0 + 4) % 65536⟩ ∧
    writeInst ⟨some "A", [], 0⟩ "ADD B C" =
      ⟨none, [.inst ("PUSH " ++ "A"), .inst "ADD B C"],
        (0 + 4) % 65536⟩ ∧
    writeln ⟨some "A", [], 0⟩ (.lbl "L:") =
      ⟨none, [.inst ("PUSH " ++ "A"), .lbl "L:"], 0⟩ ∧
    writeData ⟨some "A", [], 0⟩ "0x0001" 1 =
      ⟨none, [.inst ("PUSH " ++ "A"), .data "0x0001" 1],
        padTo4 ((0 + 1 * 2) % 65536)⟩ := by
  obtain ⟨h1, -, -, -, -, -⟩ :=
    c7_theorem ⟨none, [], 0⟩ "A" "B" "ADD B C" (.lbl "L:") "0x0001" 1
  obtain ⟨-, h2, h3, h4, h5, h6⟩ :=
    c7_theorem ⟨some "A", [], 0⟩ "A" "B" "ADD B C" (.lbl "L:") "0x0001" 1
  exact ⟨h1 rfl, h2 rfl, h3 rfl (by decide), h4 rfl (by decide),
    h5 rfl, h6 rfl⟩

/-! ## Claim C10 -/

/-- The byte counter of an output stream stays below `2^16`. -/
lemma foldl_lineBytesStep_lt (lines : List OutLine) :
    ∀ acc, acc < 65536 → lines.foldl lineBytesStep acc < 65536 := by
  induction lines with
  | nil => exact fun acc h => h
  | cons l lines ih =>
    intro acc hacc
    refine ih _ ?_
    cases l with
    | inst s => exact Nat.mod_lt _ (by norm_num)
    | data s n => exact Nat.mod_lt _ (by norm_num)
    | lbl s => exact hacc

/-- `expectedBytes` of any stream is a `uint16_t` value. -/
lemma expectedBytes_lt (lines : List OutLine) :
    expectedBytes lines < 65536 :=
  foldl_lineBytesStep_lt lines 0 (by norm_num)

/-- C10: when a deferred `PUSH` is flushed by `writeln` (here: a label
write) the flushed line reaches the output but `_bytePos` is not
advanced for it, so a writer whose counter matched its stream beforehand
ends up desynchronized: the counter no longer equals the byte length of
the emitted stream; likewise when the flush happens in `writeInst`
before a non-`POP` instruction (the counter advances 4 for the
instruction but not for the flushed `PUSH`). -/
theorem c10_theorem (w : Writer) (r t inst : String)
    (hp : w.pending = some r)
    (hsync : w.bytePos = expectedBytes w.outLines) :
    (writeln w (.lbl t)).outLines =
      w.outLines ++ [.inst ("PUSH " ++ r), .lbl t] ∧
    (writeln w (.lbl t)).bytePos = w.bytePos ∧
    (writeln w (.lbl t)).bytePos ≠
      expectedBytes (writeln w (.lbl t)).outLines ∧
    (inst.toList.take 3 ≠ "POP".toList →
      (writeInst w inst).bytePos ≠
        expectedBytes (writeInst w inst).outLines) := by
  have hwl : writeln w (.lbl t) =
      ⟨none, w.outLines ++ [.inst ("PUSH " ++ r), .lbl t], w.bytePos⟩ := by
    simp [writeln, flushPending, hp]
  have hlt : expectedBytes w.outLines < 65536 := expectedBytes_lt _
  refine ⟨by rw [hwl], by rw [hwl], ?_, ?_⟩
  · rw [hwl]
    simp only [expectedBytes, List.foldl_append, List.foldl_cons,
      List.foldl_nil, lineBytesStep]
    rw [hsync]
    simp only [expectedBytes]
    omega
  · intro hpop
    have hpop2 : List.take 3 inst.data ≠ ['P', 'O', 'P'] := by
      simpa using hpop
    have hwi : writeInst w inst =
        ⟨none, w.outLines ++ [.inst ("PUSH " ++ r), .inst inst],
         (w.bytePos + 4) % 65536⟩ := by
      simp [writeInst, hp, hpop2, writeInstRaw, writeln, flushPending]
    rw [hwi]
    simp only [expectedBytes, List.foldl_append, List.foldl_cons,
      List.foldl_nil, lineBytesStep]
    rw [hsync]
    simp only [expectedBytes]
    omega

/-- C10 witness: flushing a deferred `PUSH A` through a label write and
through an `ADD` write, starting from a synchronized writer. -/
theorem c10_theorem_witness :
    ((writeln ⟨some "A", [], 0⟩ (.lbl "S:")).outLines =
      [.inst ("PUSH " ++ "A"), .lbl "S:"] ∧
    (writeln ⟨some "A", [], 0⟩ (.lbl "S:")).bytePos = 0 ∧
    (writeln ⟨some "A", [], 0⟩ (.lbl "S:")).bytePos ≠
      expectedBytes (writeln ⟨some "A", [], 0⟩ (.lbl "S:")).outLines ∧
    (("ADD B C" : String).toList.take 3 ≠ "POP".toList →
      (writeInst ⟨some "A", [], 0⟩ "ADD B C").bytePos ≠
        expectedBytes (writeInst ⟨some "A", [], 0⟩ "ADD B C").outLines)) :=
  c10_theorem ⟨some "A", [], 0⟩ "A" "S:" "ADD B C" rfl (by decide)

/-! ## Claim C2 -/

/-- The first parameter loop, indexwise: starting from register
`regC`, the `i`-th parameter gets register `regC + i` while that is at
most `'D'` (68), and otherwise the stack offset `off` minus 2 for each
stack-resident parameter before it. -/
lemma allocParams_get (ps : List PParam) :
    ∀ (regC : Nat) (off : Int) (i : Nat), i < ps.length →
      (allocParams ps regC off).get? i =
        some (if regC + i ≤ 68
              then ⟨some (regC + i), none⟩
              else ⟨none, some (off - 2 * ((i - (69 - regC) : Nat) : Int))⟩) := by
  induction ps with
  | nil =>
    intro regC off i hi
    simp at hi
  | cons p ps ih =>
    intro regC off i hi
    unfold allocParams
    have hD : 'D'.toNat = 68 := rfl
    rw [hD]
    cases i with
    | zero =>
      split
      · next h =>
        simp [Nat.add_zero, if_pos h]
      · next h =>
        have h69 : 69 - regC = 0 := by omega
        simp [Nat.add_zero, if_neg h, h69]
    | succ i =>
      have hi2 : i < ps.length := by simpa using hi
      split
      · next h =>
        rw [List.get?_cons_succ, ih (regC + 1) off i hi2]
        have e1 : regC + 1 + i = regC + (i + 1) := by omega
        have e2 : i - (69 - (regC + 1)) = i + 1 - (69 - regC) := by omega
        rw [e1, e2]
      · next h =>
        rw [List.get?_cons_succ, ih regC (off - 2) i hi2]
        have hc1 : ¬ regC + i ≤ 68 := by omega
        have hc2 : ¬ regC + (i + 1) ≤ 68 := by omega
        have h69 : 69 - regC = 0 := by omega
        rw [if_neg hc1, if_neg hc2, h69]
        have : off - 2 - 2 * ((i : Nat) : Int) =
            off - 2 * ((i + 1 : Nat) : Int) := by
          push_cast
          ring
        simp [this]

/-- The fix-up loop preserves every parameter's register and shifts
every stack-resident (register-less) parameter's offset by
`extraParamOffset`. -/
lemma adjustParams_get (rest : List (PParam × VarAlloc)) :
    ∀ (off extra : Int) (i : Nat) (p : PParam) (a : VarAlloc),
      rest.get? i = some (p, a) →
      ∃ b, (adjustParams rest off extra).1.get? i = some b ∧
        b.reg = a.reg ∧
        (a.reg = none → b.offset = (match a.offset with
          | some o => some (o + extra)
          | none => none)) := by
  induction rest with
  | nil =>
    intro off extra i p a h
    simp at h
  | cons pa rest ih =>
    intro off extra i p a h
    obtain ⟨q, b0⟩ := pa
    unfold adjustParams
    cases i with
    | zero =>
      rw [List.get?_cons_zero, Option.some.injEq] at h
      obtain ⟨hq, hb⟩ := Prod.mk.injEq .. ▸ h
      subst hq hb
      split
      · next hcond =>
        refine ⟨{ b0 with offset := some off }, rfl, rfl, ?_⟩
        intro hreg
        rw [hreg] at hcond
        simp at hcond
      · next hcond =>
        split
        · next hnone =>
          exact ⟨{ b0 with offset := (match b0.offset with
            | some o => some (o + extra)
            | none => none) }, rfl, rfl, fun _ => rfl⟩
        · next hsome =>
          refine ⟨b0, rfl, rfl, ?_⟩
          intro hreg
          rw [hreg] at hsome
          simp at hsome
    | succ i =>
      rw [List.get?_cons_succ] at h
      split
      · obtain ⟨b, hb1, hb2, hb3⟩ := ih (off + 2) extra i p a h
        exact ⟨b, hb1, hb2, hb3⟩
      · split
        · obtain ⟨b, hb1, hb2, hb3⟩ := ih off extra i p a h
          exact ⟨b, hb1, hb2, hb3⟩
        · obtain ⟨b, hb1, hb2, hb3⟩ := ih off extra i p a h
          exact ⟨b, hb1, hb2, hb3⟩

/-- Indexing a zip of two lists. -/
lemma zip_get? {α β : Type} (as : List α) :
    ∀ (bs : List β) (i : Nat) (a : α) (b : β),
      as.get? i = some a → bs.get? i = some b →
      (as.zip bs).get? i = some (a, b) := by
  induction as with
  | nil =>
    intro bs i a b ha
    simp at ha
  | cons x as ih =>
    intro bs i a b ha hb
    cases bs with
    | nil => simp at hb
    | cons y bs =>
      cases i with
      | zero =>
        rw [List.get?_cons_zero, Option.some.injEq] at ha hb
        subst ha hb
        rfl
      | succ i =>
        rw [List.get?_cons_succ] at ha hb
        rw [List.zip_cons_cons, List.get?_cons_succ]
        exact ih bs i a b ha hb

/-- The local-variable loop decrements `extraParamOffset` by 2 for
exactly each local that received a callee-saved register. -/
lemma allocLocals_extra (ls : List PLocal) :
    ∀ (regC : Nat) (off extra : Int),
      (allocLocals ls regC off extra).2.2.1 =
        extra - 2 * ((allocLocals ls regC off extra).2.2.2 : Int) := by
  induction ls with
  | nil =>
    intro regC off extra
    simp [allocLocals]
  | cons l ls ih =>
    intro regC off extra
    unfold allocLocals
    cases hcond : (decide (regC ≤ 'K'.toNat) && l.canBeReg) <;>
      cases harr : l.isArray <;>
        simp only [hcond, harr, if_true, if_false, Bool.false_eq_true,
          Bool.true_eq_false]
    · show (allocLocals ls regC (off + 2) extra).2.2.1 =
        extra - 2 *
          ((0 + (allocLocals ls regC (off + 2) extra).2.2.2 : Nat) : Int)
      rw [ih]
      push_cast
      ring
    · show (allocLocals ls regC (off + 2 + 2 * (l.arraySize : Int))
          extra).2.2.1 =
        extra - 2 * ((0 + (allocLocals ls regC
          (off + 2 + 2 * (l.arraySize : Int)) extra).2.2.2 : Nat) : Int)
      rw [ih]
      push_cast
      ring
    · show (allocLocals ls (regC + 1) off (extra - 2)).2.2.1 =
        extra - 2 *
          ((1 + (allocLocals ls (regC + 1) off
            (extra - 2)).2.2.2 : Nat) : Int)
      rw [ih]
      push_cast
      ring
    · show (allocLocals ls (regC + 1) (off + 2 * (l.arraySize : Int))
          (extra - 2)).2.2.1 =
        extra - 2 * ((1 + (allocLocals ls (regC + 1)
          (off + 2 * (l.arraySize : Int)) (extra - 2)).2.2.2 : Nat) : Int)
      rw [ih]
      push_cast
      ring

/-- C2 counterexample: a function with five parameters (none
address-taken) and no locals.  The claim places the fifth parameter at
frame-pointer offset `-2`; the allocator actually leaves it at `-4`,
because the fix-up loop after `PUSH FP` shifts every stack-resident
parameter by `extraParamOffset = -2` (one saved register: FP). -/
theorem c2_counterexample :
    (funcAlloc (List.replicate 5 ⟨true⟩) []).1.get? 4 =
      some ⟨none, some (-4)⟩ ∧
    some (-4 : Int) ≠ some (-2 : Int) := by
  refine ⟨by decide, by decide⟩

/-- C2 as amended: parameters are positional — the first four (indices
`i < 4`) occupy registers A–D in order — but the overflow parameters
(indices `i ≥ 4`) end up, once the body's statements are emitted, at
offset `-2*(i-3) - 2*(savedLocals+1)`: the raw slots `-2, -4, …` are
further shifted by `-2` for each callee-saved register pushed for a
register-resident local, and by `-2` for the pushed FP. -/
theorem c2_theorem (params : List PParam) (locals : List PLocal)
    (i : Nat) (p : PParam) (hp : params.get? i = some p) :
    (i < 4 → ∃ b, (funcAlloc params locals).1.get? i = some b ∧
       b.reg = some ('A'.toNat + i)) ∧
    (4 ≤ i → ∃ b, (funcAlloc params locals).1.get? i = some b ∧
       b.reg = none ∧
       b.offset = some (-2 * ((i : Int) - 3) -
         2 * (((funcAlloc params locals).2.2.2 : Nat) : Int) - 2)) := by
  have hlen : i < params.length := by
    by_contra hge
    rw [List.get?_eq_none.mpr (by omega)] at hp
    exact Option.noConfusion hp
  have h1 : (funcAlloc params locals).1 =
      (adjustParams (params.zip (allocParams params ('A'.toNat) (-2)))
        (allocLocals locals ('E'.toNat) 0 0).2.1
        ((allocLocals locals ('E'.toNat) 0 0).2.2.1 - 2)).1 := rfl
  have h2 : (funcAlloc params locals).2.2.2 =
      (allocLocals locals ('E'.toNat) 0 0).2.2.2 := rfl
  have hA : 'A'.toNat = 65 := rfl
  have hextra : (allocLocals locals ('E'.toNat) 0 0).2.2.1 =
      0 - 2 * ((allocLocals locals ('E'.toNat) 0 0).2.2.2 : Int) :=
    allocLocals_extra locals _ 0 0
  constructor
  · intro hi4
    have hpa := allocParams_get params ('A'.toNat) (-2) i hlen
    rw [hA] at hpa
    rw [if_pos (by omega)] at hpa
    have hz := zip_get? params (allocParams params ('A'.toNat) (-2)) i p
      ⟨some (65 + i), none⟩ hp (by rw [hA]; exact hpa)
    obtain ⟨b, hb1, hb2, -⟩ := adjustParams_get _
      (allocLocals locals ('E'.toNat) 0 0).2.1
      ((allocLocals locals ('E'.toNat) 0 0).2.2.1 - 2) i p
      ⟨some (65 + i), none⟩ hz
    refine ⟨b, ?_, ?_⟩
    · rw [h1]
      exact hb1
    · rw [hb2, hA]
  · intro hi4
    have hpa := allocParams_get params ('A'.toNat) (-2) i hlen
    rw [hA] at hpa
    rw [if_neg (by omega)] at hpa
    have hz := zip_get? params (allocParams params ('A'.toNat) (-2)) i p
      ⟨none, some (-2 - 2 * ((i - (69 - 65) : Nat) : Int))⟩ hp
      (by rw [hA]; exact hpa)
    obtain ⟨b, hb1, hb2, hb3⟩ := adjustParams_get _
      (allocLocals locals ('E'.toNat) 0 0).2.1
      ((allocLocals locals ('E'.toNat) 0 0).2.2.1 - 2) i p
      ⟨none, some (-2 - 2 * ((i - (69 - 65) : Nat) : Int))⟩ hz
    refine ⟨b, ?_, hb2, ?_⟩
    · rw [h1]
      exact hb1
    · rw [hb3 rfl]
      simp only
      rw [h2, hextra]
      have hc : ((i - (69 - 65) : Nat) : Int) = (i : Int) - 4 := by
        omega
      rw [hc]
      congr 1
      ring

/-- C2 witness: with five parameters and no locals, parameter 1 sits in
register B and parameter 4 at offset `-2*(4-3) - 2*(0+1) = -4`. -/
theorem c2_theorem_witness :
    (∃ b, (funcAlloc (List.replicate 5 (⟨true⟩ : PParam)) []).1.get? 1 =
        some b ∧ b.reg = some ('A'.toNat + 1)) ∧
    (∃ b, (funcAlloc (List.replicate 5 (⟨true⟩ : PParam)) []).1.get? 4 =
        some b ∧ b.reg = none ∧
        b.offset = some (-2 * (((4 : Nat) : Int) - 3) -
          2 * (((funcAlloc (List.replicate 5 (⟨true⟩ : PParam))
            []).2.2.2 : Nat) : Int) - 2)) :=
  ⟨(c2_theorem (List.replicate 5 ⟨true⟩) [] 1 ⟨true⟩ (by decide)).1
      (by decide),
   (c2_theorem (List.replicate 5 ⟨true⟩) [] 4 ⟨true⟩ (by decide)).2
      (by decide)⟩

end Consolite
